import Mathlib

/-!
CM3663 ambient-light / proximity sensor driver

A shallow embedding of `drivers/sensors/optical/cm3663.c`.

The driver instance (`struct cm3663_data`) is a Lean structure that is passed
through every function.  Calls that leave the driver (rail power, timers, the
interrupt line, the input layer) and the register-level bus calls are recorded
in a call log (`trace`), in program order, so that statements about *which
actions are performed, and in which order* can be made.  The outcome of every
single `i2c_transfer` is taken from the adapter, an arbitrary sequence of
outcomes.  `printk`, `msleep` and the mutex have no effect on the modelled
state and are not recorded.
-/

namespace CM3663

/-! ## Constants (lines 38-76) -/

def LIGHT_BUFFER_NUM : Int := 5
def PROX_READ_NUM : Nat := 40

def REGS_ARA : Nat := 0x18
def REGS_ALS_CMD : Nat := 0x20
def REGS_ALS_MSB : Nat := 0x21
def REGS_INIT : Nat := 0x22
def REGS_ALS_LSB : Nat := 0x23
def REGS_PS_CMD : Nat := 0xB0
def REGS_PS_DATA : Nat := 0xB1
def REGS_PS_THD : Nat := 0xB2

def PROXIMITY_THRESHOLD : Nat := 0x0A

/-- The table `reg_defaults[8]`. -/
def reg_defaults : List Nat :=
  [0x00, 0x00, 0x00, 0x20, 0x00, 0x30, 0x00, PROXIMITY_THRESHOLD]

/-- The table `adc_table[4]`. -/
def adc_table : List Int := [15, 150, 1500, 15000]

/-- The size `ARRAY_SIZE(adc_table)`. -/
def ARRAY_SIZE_adc_table : Nat := adc_table.length

def LIGHT_ENABLED : Nat := 1
def PROXIMITY_ENABLED : Nat := 2

/-- The errno `ENODEV`. -/
def ENODEV : Int := 19

/-! ## The bus -/

/-- Outcome of one `i2c_transfer`: its return value and, for a read message,
the byte the device put into the one-byte buffer. -/
structure XferOutcome where
  ret : Int
  byte : Nat

/-- The bus adapter: `outcome n` is the outcome of the `n`-th transfer that is
run on it (counted from 0). -/
structure i2c_adapter where
  outcome : Nat → XferOutcome

/-- The part of `struct i2c_client` the driver looks at. -/
structure i2c_client where
  adapter : Option i2c_adapter

/-! ## The call log -/

/-- Calls recorded in the log. -/
inductive Action where
  /-- a call `cm3663_i2c_read(cm3663, addr, _)` -/
  | i2c_read (addr : Nat)
  /-- a call `cm3663_i2c_write(cm3663, addr, val)` -/
  | i2c_write (addr : Nat) (val : Nat)
  /-- a call `cm3663->pdata->proximity_power(up)` -/
  | proximity_power (up : Bool)
  /-- a call `hrtimer_start(&cm3663->light_timer, delay, HRTIMER_MODE_REL)` -/
  | hrtimer_start (delay : Int)
  /-- a call `hrtimer_cancel(&cm3663->light_timer)` -/
  | hrtimer_cancel
  /-- a call `cancel_work_sync(&cm3663->work_light)` -/
  | cancel_work_sync
  /-- a call `enable_irq(cm3663->irq)` -/
  | enable_irq
  /-- a call `disable_irq(cm3663->irq)` -/
  | disable_irq
  /-- the pair `input_report_abs(light_input_dev, ABS_MISC, value)`,
  `input_sync(light_input_dev)` -/
  | input_report_abs (value : Int)
  /-- a call `wake_lock_timeout(&cm3663->prx_wake_lock, 3*HZ)` -/
  | wake_lock_timeout
  deriving DecidableEq, Repr

/-- Rail power calls. -/
def Action.isRail : Action → Bool
  | .proximity_power _ => true
  | _ => false

/-- Interrupt-line calls. -/
def Action.isIrq : Action → Bool
  | .enable_irq => true
  | .disable_irq => true
  | _ => false

/-- Register-level bus calls. -/
def Action.isBus : Action → Bool
  | .i2c_read _ => true
  | .i2c_write _ _ => true
  | _ => false

/-- Timer and work-queue calls of the light sampler. -/
def Action.isTimer : Action → Bool
  | .hrtimer_start _ => true
  | .hrtimer_cancel => true
  | .cancel_work_sync => true
  | _ => false

/-- Light level events. -/
def Action.isEvent : Action → Bool
  | .input_report_abs _ => true
  | _ => false

/-! ## Driver data (lines 79-109) -/

/-- The fields of `struct cm3663_data` that the modelled functions use,
together with the state of the collaborators the driver drives: the number of
transfers run so far on the bus (`xfers`), the rail (`rail_on`), the interrupt
line (`irq_enabled`) and the call log (`trace`). -/
structure cm3663_data where
  i2c_client : Option i2c_client
  /-- the element `avg[0]` -/
  avg0 : Int
  /-- the element `avg[1]` -/
  avg1 : Int
  /-- the element `avg[2]` -/
  avg2 : Int
  light_count : Int
  light_buffer : Int
  light_poll_delay : Int
  power_state : Nat
  xfers : Nat
  rail_on : Bool
  irq_enabled : Bool
  trace : List Action

/-- The actions a call appended to the log, given the state before (`s`) and
after (`t`) the call. -/
def newActions (s t : cm3663_data) : List Action :=
  t.trace.drop s.trace.length

/-! ## Register access (lines 129-191) -/

/-- State of the retry loop when it is left. -/
structure RetryExit where
  /-- the value of the `return err;` inside the loop, if it was taken -/
  returned : Option Int
  /-- the variable `err` -/
  err : Int
  /-- content of the one-byte buffer -/
  buf : Nat
  /-- number of transfers run on the adapter so far -/
  xfers : Nat

/-- The loop
`while (retry--) { err = i2c_transfer(client->adapter, msg, 1); if (err >= 0) return err; }`.
`isRead` says whether the message is a read (`msg->flags = 1`), in which case
a successful transfer fills the buffer. -/
def i2c_retry_loop (a : i2c_adapter) (isRead : Bool) :
    (retry : Nat) → (err : Int) → (buf : Nat) → (xfers : Nat) → RetryExit
  | 0, err, buf, xfers => ⟨none, err, buf, xfers⟩
  | retry + 1, _, buf, xfers =>
    let o := a.outcome xfers
    if o.ret ≥ 0 then
      ⟨some o.ret, o.ret, if isRead then o.byte else buf, xfers + 1⟩
    else
      i2c_retry_loop a isRead retry o.ret buf (xfers + 1)

/-- Result of `cm3663_i2c_read`: return value, content of `*val`, driver. -/
structure ReadResult where
  ret : Int
  val : Nat
  st : cm3663_data

/-- The function `cm3663_i2c_read` (lines 129-158).  `val` is the content of
`*val` on entry. -/
def cm3663_i2c_read (s : cm3663_data) (addr : Nat) (val : Nat) : ReadResult :=
  let s := { s with trace := s.trace ++ [Action.i2c_read addr] }
  match s.i2c_client with
  | none => ⟨-ENODEV, val, s⟩
  | some client =>
    match client.adapter with
    | none => ⟨-ENODEV, val, s⟩
    | some adapter =>
      let r := i2c_retry_loop adapter true 10 0 val s.xfers
      let s := { s with xfers := r.xfers }
      match r.returned with
      | some err => ⟨err, r.buf, s⟩
      | none =>
        if addr = REGS_ARA then ⟨0, r.buf, s⟩
        else ⟨r.err, r.buf, s⟩

/-- Result of `cm3663_i2c_write`: return value, driver. -/
structure WriteResult where
  ret : Int
  st : cm3663_data

/-- The function `cm3663_i2c_write` (lines 164-191). -/
def cm3663_i2c_write (s : cm3663_data) (addr : Nat) (val : Nat) : WriteResult :=
  let s := { s with trace := s.trace ++ [Action.i2c_write addr val] }
  match s.i2c_client with
  | none => ⟨-ENODEV, s⟩
  | some client =>
    match client.adapter with
    | none => ⟨-ENODEV, s⟩
    | some adapter =>
      let r := i2c_retry_loop adapter false 10 0 val s.xfers
      let s := { s with xfers := r.xfers }
      match r.returned with
      | some err => ⟨err, s⟩
      | none => ⟨r.err, s⟩

/-! ## Collaborators -/

/-- Modelled from the spec: the platform callback `pdata->proximity_power`,
the rail control `setRailPower(bool)`; it switches the shared rail. -/
def proximity_power (s : cm3663_data) (up : Bool) : cm3663_data :=
  { s with rail_on := up, trace := s.trace ++ [Action.proximity_power up] }

/-- Modelled from the spec: the kernel call `hrtimer_start` on `light_timer`,
the scheduler's `scheduleAfter(duration, callback)`. -/
def hrtimer_start (s : cm3663_data) (delay : Int) : cm3663_data :=
  { s with trace := s.trace ++ [Action.hrtimer_start delay] }

/-- Modelled from the spec: the kernel call `hrtimer_cancel` on `light_timer`,
the scheduler's `cancel(handle)`. -/
def hrtimer_cancel (s : cm3663_data) : cm3663_data :=
  { s with trace := s.trace ++ [Action.hrtimer_cancel] }

/-- Modelled from the spec: the kernel call `cancel_work_sync` on `work_light`,
which waits for an in-flight sample operation. -/
def cancel_work_sync (s : cm3663_data) : cm3663_data :=
  { s with trace := s.trace ++ [Action.cancel_work_sync] }

/-- Modelled from the spec: the kernel call `enable_irq`, the interrupt line's
`armEdge()`. -/
def enable_irq (s : cm3663_data) : cm3663_data :=
  { s with irq_enabled := true, trace := s.trace ++ [Action.enable_irq] }

/-- Modelled from the spec: the kernel call `disable_irq`, the interrupt line's
`disarmEdge()`. -/
def disable_irq (s : cm3663_data) : cm3663_data :=
  { s with irq_enabled := false, trace := s.trace ++ [Action.disable_irq] }

/-- Modelled from the spec: the kernel calls `input_report_abs` and
`input_sync` on `light_input_dev`, the event `LightLevelChanged(value)`. -/
def input_report_abs (s : cm3663_data) (value : Int) : cm3663_data :=
  { s with trace := s.trace ++ [Action.input_report_abs value] }

/-- Modelled from the spec: the kernel call `wake_lock_timeout` on
`prx_wake_lock`, the wake-hold `holdAwake(duration)`. -/
def wake_lock_timeout (s : cm3663_data) : cm3663_data :=
  { s with trace := s.trace ++ [Action.wake_lock_timeout] }

/-! ## Light channel on and off (lines 196-218) -/

/-- The function `cm3663_light_enable` (lines 196-208).  The local `tmp` is
not initialised in the source; its content is never used. -/
def cm3663_light_enable (s : cm3663_data) : cm3663_data :=
  let tmp := 0
  let s := { s with light_count := 0 }
  let s := { s with light_buffer := 0 }
  let r := cm3663_i2c_read s REGS_ARA tmp
  let r := cm3663_i2c_read r.st REGS_ARA r.val
  let r := cm3663_i2c_read r.st REGS_ARA r.val
  let s := (cm3663_i2c_write r.st REGS_INIT (reg_defaults.getD 3 0)).st
  let s := (cm3663_i2c_write s REGS_ALS_CMD (reg_defaults.getD 1 0)).st
  hrtimer_start s s.light_poll_delay

/-- The function `cm3663_light_disable` (lines 213-218). -/
def cm3663_light_disable (s : cm3663_data) : cm3663_data :=
  let s := (cm3663_i2c_write s REGS_ALS_CMD 0x01).st
  let s := hrtimer_cancel s
  cancel_work_sync s

/-! ## Raw values (lines 224-304) -/

/-- A value as a 32-bit `int` holds it (two's complement). -/
def wrap_int (x : Int) : Int :=
  (x + 2147483648) % 4294967296 - 2147483648

/-- Result of `lightsensor_get_alsvalue`: return value, driver. -/
structure AlsResult where
  value : Int
  st : cm3663_data

/-- The function `lightsensor_get_alsvalue` (lines 224-278, the `#if 0` block
left out).  `als_low` and `als_high` are the contents of the two `u8` locals
on entry, which the source does not initialise. -/
def lightsensor_get_alsvalue (s : cm3663_data) (als_low als_high : Nat) : AlsResult :=
  let r := cm3663_i2c_read s REGS_ALS_LSB als_low
  let als_low := r.val % 256
  let r := cm3663_i2c_read r.st REGS_ALS_MSB als_high
  let als_high := r.val % 256
  let als_avr_value := wrap_int ((((als_high <<< 8) ||| als_low : Nat) : Int) * 5)
  let als_avr_value := if als_avr_value < 8 then 0 else als_avr_value
  ⟨als_avr_value, r.st⟩

/-- The locals of `proxsensor_get_avgvalue` and the driver. -/
structure ProxLocals where
  min : Int
  max : Int
  avg : Int
  proximity_value : Nat
  st : cm3663_data

/-- The loop `for (i = 0; i < PROX_READ_NUM; i++) { ... }` of
`proxsensor_get_avgvalue` (lines 286-298), with `todo = PROX_READ_NUM - i`
iterations to go. -/
def prox_read_loop : (todo : Nat) → (i : Nat) → ProxLocals → ProxLocals
  | 0, _, l => l
  | todo + 1, i, l =>
    let r := cm3663_i2c_read l.st REGS_PS_DATA l.proximity_value
    let proximity_value := r.val % 256
    let avg := wrap_int (l.avg + (proximity_value : Int))
    let min :=
      if i = 0 then (proximity_value : Int)
      else if (proximity_value : Int) < l.min then (proximity_value : Int)
      else l.min
    let max := if (proximity_value : Int) > l.max then (proximity_value : Int) else l.max
    prox_read_loop todo (i + 1) ⟨min, max, avg, proximity_value, r.st⟩

/-- The function `proxsensor_get_avgvalue` (lines 280-304). -/
def proxsensor_get_avgvalue (s : cm3663_data) : cm3663_data :=
  let l := prox_read_loop PROX_READ_NUM 0 ⟨0, 0, 0, 0, s⟩
  let avg := Int.tdiv l.avg (PROX_READ_NUM : Int)
  let s := { l.st with avg0 := l.min }
  let s := { s with avg1 := avg }
  { s with avg2 := l.max }

/-! ## The attribute surface (lines 393-551) -/

/-- The function `cm3663_light_poll_delay_store` (lines 393-417).  `err` and
`new_delay` are what `strict_strtoll(buf, 10, &new_delay)` produced.  The
poll delay is kept in nanoseconds. -/
def cm3663_light_poll_delay_store (s : cm3663_data) (err : Int) (new_delay : Int) :
    cm3663_data :=
  if err < 0 then s
  else if new_delay ≠ s.light_poll_delay then
    let s := { s with light_poll_delay := new_delay }
    if s.power_state &&& LIGHT_ENABLED ≠ 0 then
      let s := cm3663_light_disable s
      cm3663_light_enable s
    else s
  else s

/-- The function `cm3663_light_enable_store` (lines 468-501).  `enable` is the
value of `simple_strtoul(buf, NULL, 10)` as an `int`.  The function returns
`size` on every path.  The call `proximity_power(false)` of the disable branch
is commented out in the source (line 495). -/
def cm3663_light_enable_store (s : cm3663_data) (enable : Int) : cm3663_data :=
  let enabled : Int := ((s.power_state &&& LIGHT_ENABLED : Nat) : Int)
  if enable = enabled then s
  else if enable ≠ 0 then
    let s := if s.power_state = 0 then proximity_power s true else s
    let s := { s with power_state := s.power_state ||| LIGHT_ENABLED }
    cm3663_light_enable s
  else
    let s := cm3663_light_disable s
    let s := { s with power_state := s.power_state &&& (0xFF ^^^ LIGHT_ENABLED) }
    s

/-- The function `cm3663_proximity_enable_store` (lines 507-551).  `enable` is
the value of `simple_strtoul(buf, NULL, 10)` as an `int`.  The function
returns `size` on every path.  The call `proximity_power(false)` of the
disable branch is commented out in the source (line 545). -/
def cm3663_proximity_enable_store (s : cm3663_data) (enable : Int) : cm3663_data :=
  let enabled : Int := (((s.power_state &&& PROXIMITY_ENABLED) >>> 1 : Nat) : Int)
  let tmp := 0
  if enable = enabled then s
  else if enable ≠ 0 then
    let s := if s.power_state = 0 then proximity_power s true else s
    let s := { s with power_state := s.power_state ||| PROXIMITY_ENABLED }
    let r := cm3663_i2c_read s REGS_ARA tmp
    let r := cm3663_i2c_read r.st REGS_ARA r.val
    let s := (cm3663_i2c_write r.st REGS_INIT (reg_defaults.getD 3 0)).st
    let s := (cm3663_i2c_write s REGS_PS_THD (reg_defaults.getD 7 0)).st
    let s := (cm3663_i2c_write s REGS_PS_CMD (reg_defaults.getD 5 0)).st
    enable_irq s
  else
    let s := disable_irq s
    let s := (cm3663_i2c_write s REGS_PS_CMD 0x01).st
    let s := { s with power_state := s.power_state &&& (0xFF ^^^ PROXIMITY_ENABLED) }
    s

/-! ## The light sampler (lines 722-737) -/

/-- How the scan over `adc_table` ends. -/
inductive ScanExit where
  /-- the loop was left through `break` with this `i` -/
  | found (i : Nat)
  /-- the loop read `adc_table[i]` with `i` outside the table -/
  | out_of_bounds (i : Nat)
  /-- the iteration budget of the model was used up -/
  | out_of_fuel
  deriving DecidableEq, Repr

/-- The loop `for (i = 0; ARRAY_SIZE(adc_table); i++) if (als <= adc_table[i]) break;`
(lines 722-724).  The loop condition is the constant `ARRAY_SIZE(adc_table)`;
the loop is left only through `break`. -/
def adc_scan (als : Int) : (fuel : Nat) → (i : Nat) → ScanExit
  | 0, _ => ScanExit.out_of_fuel
  | fuel + 1, i =>
    if ARRAY_SIZE_adc_table ≠ 0 then
      match adc_table[i]? with
      | none => ScanExit.out_of_bounds i
      | some threshold =>
        if als ≤ threshold then ScanExit.found i
        else adc_scan als fuel (i + 1)
    else ScanExit.found i

/-- The function `cm3663_work_func_light` from line 722 on; `als` is the value
that `lightsensor_get_alsvalue` returned at line 679.  There is no result when
the scan leaves the table. -/
def cm3663_work_func_light (s : cm3663_data) (als : Int) : Option cm3663_data :=
  match adc_scan als (ARRAY_SIZE_adc_table + 1) 0 with
  | ScanExit.found i =>
    if s.light_buffer = (i : Int) then
      let count := s.light_count
      let s := { s with light_count := count + 1 }
      if count = LIGHT_BUFFER_NUM then
        let s := input_report_abs s (als + 1)
        some { s with light_count := 0 }
      else some s
    else
      let s := { s with light_buffer := (i : Int) }
      some { s with light_count := 0 }
  | _ => none

/-- What one tick of the light sampler did. -/
structure TickObs where
  /-- the bucket index differed from the stored one (`light_buffer` was rewritten) -/
  changed : Bool
  /-- the calls the tick made -/
  actions : List Action
  deriving DecidableEq, Repr

/-- The light sampler run tick by tick on a sequence of raw values; the result
lists, for each tick, what it did. -/
def light_run (s : cm3663_data) : List Int → Option (List TickObs)
  | [] => some []
  | als :: rest =>
    match cm3663_work_func_light s als with
    | none => none
    | some t =>
      match light_run t rest with
      | none => none
      | some obs => some (⟨decide (t.light_buffer ≠ s.light_buffer), newActions s t⟩ :: obs)

/-! ## Reset (lines 840-864) -/

/-- The function `cm3663_reset` (lines 840-864). -/
def cm3663_reset (s : cm3663_data) : cm3663_data :=
  let tmp := 0
  let s := hrtimer_cancel s
  let s := proximity_power s false
  let s := proximity_power s true
  let s := if s.power_state &&& LIGHT_ENABLED ≠ 0 then cm3663_light_enable s else s
  if s.power_state &&& PROXIMITY_ENABLED ≠ 0 then
    let r := cm3663_i2c_read s REGS_ARA tmp
    let r := cm3663_i2c_read r.st REGS_ARA r.val
    let s := (cm3663_i2c_write r.st REGS_INIT (reg_defaults.getD 3 0)).st
    let s := (cm3663_i2c_write s REGS_PS_THD (reg_defaults.getD 7 0)).st
    let s := (cm3663_i2c_write s REGS_PS_CMD (reg_defaults.getD 5 0)).st
    s
  else s

/-! ## Suspend and resume (lines 1086-1126) -/

/-- The function `cm3663_suspend` (lines 1086-1106).  `n_drv_is` is the
content of the global of that name; the function returns 0 on every path. -/
def cm3663_suspend (n_drv_is : Int) (s : cm3663_data) : cm3663_data :=
  if n_drv_is = 0 then
    if s.power_state &&& PROXIMITY_ENABLED = 0 then proximity_power s false
    else s
  else s

/-- The function `cm3663_resume` (lines 1108-1126).  `n_drv_is` is the content
of the global of that name; the function returns 0 on every path. -/
def cm3663_resume (n_drv_is : Int) (s : cm3663_data) : cm3663_data :=
  if n_drv_is = 0 then
    if s.power_state &&& PROXIMITY_ENABLED = 0 then proximity_power s true
    else wake_lock_timeout s
  else s

/-! ## Sequences of calls -/

/-- A call of one of the entry points that change the power state or re-arm
the sensors, with its arguments. -/
inductive Call where
  | light_enable_store (enable : Int)
  | proximity_enable_store (enable : Int)
  | light_poll_delay_store (err : Int) (new_delay : Int)
  | reset

/-- The driver after one call. -/
def Call.run (s : cm3663_data) : Call → cm3663_data
  | Call.light_enable_store enable => cm3663_light_enable_store s enable
  | Call.proximity_enable_store enable => cm3663_proximity_enable_store s enable
  | Call.light_poll_delay_store err new_delay => cm3663_light_poll_delay_store s err new_delay
  | Call.reset => cm3663_reset s

/-- The driver after a sequence of calls, run from left to right. -/
def run_calls (s : cm3663_data) : List Call → cm3663_data
  | [] => s
  | c :: rest => run_calls (c.run s) rest

/-- The interrupt line is enabled exactly when the Proximity flag is set. -/
def irq_follows_flag (s : cm3663_data) : Prop :=
  s.irq_enabled = true ↔ s.power_state &&& PROXIMITY_ENABLED ≠ 0

/-- The light sampler run tick by tick on a sequence of raw values; the result
lists the driver after each tick. -/
def light_states (s : cm3663_data) : List Int → Option (List cm3663_data)
  | [] => some []
  | als :: rest =>
    match cm3663_work_func_light s als with
    | none => none
    | some t =>
      match light_states t rest with
      | none => none
      | some sts => some (t :: sts)

/-- The content of `proximity_value` after each of the next `n` reads of the PS
data register in `proxsensor_get_avgvalue`, from the driver `s` with
`proximity_value` holding `pv`. -/
def prox_samples : (n : Nat) → (pv : Nat) → (s : cm3663_data) → List Nat
  | 0, _, _ => []
  | n + 1, pv, s =>
    let r := cm3663_i2c_read s REGS_PS_DATA pv
    (r.val % 256) :: prox_samples n (r.val % 256) r.st

/-! ## Descriptions of the light sampler that do not mention the driver -/

/-- The least index `i` with `als ≤ adc_table[i]`, the table length when there
is none. -/
def bucket_index (als : Int) : Nat :=
  adc_table.findIdx (fun threshold => decide (als ≤ threshold))

/-- For each sample of a sequence, the length of the run of consecutive
samples ending with it whose bucket equals the bucket of the sample before
them; it is 0 at a sample whose bucket differs from the one before.  `prev` is
the bucket before the first sample and `run` the length of the run that is
under way there. -/
def stable_runs (prev : Nat) (run : Nat) : List Int → List Nat
  | [] => []
  | als :: rest =>
    if bucket_index als = prev then (run + 1) :: stable_runs prev (run + 1) rest
    else 0 :: stable_runs (bucket_index als) 0 rest

/-- What a tick is expected to do, given the length `run` of the run of stable
samples that ends with it: the bucket changed when the run is empty, and a
level event with `als + 1` is raised when the run length is a positive
multiple of 6. -/
def expected_tick (run : Nat) (als : Int) : TickObs :=
  ⟨decide (run = 0), if 0 < run ∧ run % 6 = 0 then [Action.input_report_abs (als + 1)] else []⟩

/-- Number of light level events in a run. -/
def count_events (obs : List TickObs) : Nat :=
  (obs.map (fun o => (o.actions.filter Action.isEvent).length)).sum

/-- Number of ticks of a run whose bucket index differed from the stored one. -/
def count_changed (obs : List TickObs) : Nat :=
  (obs.filter (fun o => o.changed)).length

/-- Number of ticks of a run whose bucket index equalled the stored one. -/
def count_stable (obs : List TickObs) : Nat :=
  (obs.filter (fun o => !o.changed)).length

/-- The driver with one flag of `power_state` cleared and nothing else
changed: the state from which enabling that sensor starts. -/
def clear_flag (s : cm3663_data) (flag : Nat) : cm3663_data :=
  { s with power_state := s.power_state &&& (0xFF ^^^ flag) }

/-- Bus and timer calls. -/
def Action.isBusOrTimer (a : Action) : Bool :=
  a.isBus || a.isTimer

/-! ## Concrete states used in examples -/

/-- An adapter on which every transfer succeeds (one message transferred). -/
def bus_ok : i2c_adapter := ⟨fun _ => ⟨1, 0⟩⟩

/-- An adapter on which every transfer fails with `-EIO`. -/
def bus_dead : i2c_adapter := ⟨fun _ => ⟨-5, 0⟩⟩

/-- An adapter on which the first three transfers fail and the others succeed. -/
def bus_flaky : i2c_adapter := ⟨fun n => if n < 3 then ⟨-5, 0⟩ else ⟨1, 0x42⟩⟩

/-- An adapter on which every transfer succeeds and delivers 0xB9 on even and
0x0B on odd transfers: the ALS bytes of the raw count 0x0BB9 = 3001. -/
def bus_bright : i2c_adapter := ⟨fun n => if n % 2 = 0 then ⟨1, 0xB9⟩ else ⟨1, 0x0B⟩⟩

/-- An adapter on which every transfer succeeds and the `n`-th delivers the
byte `(7 * n + 3) % 256`. -/
def bus_ramp : i2c_adapter := ⟨fun n => ⟨1, (7 * n + 3) % 256⟩⟩

/-- The driver data as `cm3663_i2c_probe` leaves it for the given client:
zeroed by `kzalloc`, a poll delay of 200 ms, the interrupt line disabled by
`cm3663_setup_irq`; the rail is taken to be off and the log to be empty. -/
def probed (client : Option i2c_client) : cm3663_data :=
  { i2c_client := client, avg0 := 0, avg1 := 0, avg2 := 0, light_count := 0, light_buffer := 0,
    light_poll_delay := 200000000, power_state := 0, xfers := 0,
    rail_on := false, irq_enabled := false, trace := [] }

/-! ## The retry loop -/

/-- The loop returns at the first transfer that succeeds, having run one
transfer more than the number of failures before it. -/
theorem i2c_retry_loop_success (a : i2c_adapter) (isRead : Bool) :
    ∀ (retry : Nat) (err : Int) (buf x k : Nat), k < retry →
      (∀ j, j < k → (a.outcome (x + j)).ret < 0) →
      0 ≤ (a.outcome (x + k)).ret →
      (i2c_retry_loop a isRead retry err buf x).returned = some (a.outcome (x + k)).ret ∧
      (i2c_retry_loop a isRead retry err buf x).xfers = x + (k + 1) := by
  intro retry
  induction retry with
  | zero => intro err buf x k hk; omega
  | succ n ih =>
    intro err buf x k hk hfail hok
    cases k with
    | zero =>
      have h0 : (a.outcome x).ret ≥ 0 := by simpa using hok
      simp [i2c_retry_loop, h0]
    | succ k =>
      have hx : ¬ (a.outcome x).ret ≥ 0 := by
        have := hfail 0 (Nat.succ_pos k)
        simp only [Nat.add_zero] at this
        omega
      have hstep := ih (a.outcome x).ret buf (x + 1) k (by omega)
        (fun j hj => by
          have := hfail (j + 1) (by omega)
          rwa [show x + 1 + j = x + (j + 1) by omega])
        (by rwa [show x + 1 + k = x + (k + 1) by omega])
      simp only [i2c_retry_loop, hx, if_false]
      rw [show x + 1 + k = x + (k + 1) by omega] at hstep
      rw [hstep.1, hstep.2]
      exact ⟨rfl, by omega⟩

/-- When every transfer of the budget fails the loop runs the whole budget and
falls through with the error of the last transfer. -/
theorem i2c_retry_loop_exhaust (a : i2c_adapter) (isRead : Bool) :
    ∀ (retry : Nat) (err : Int) (buf x : Nat),
      (∀ j, j < retry + 1 → (a.outcome (x + j)).ret < 0) →
      (i2c_retry_loop a isRead (retry + 1) err buf x).returned = none ∧
      (i2c_retry_loop a isRead (retry + 1) err buf x).err = (a.outcome (x + retry)).ret ∧
      (i2c_retry_loop a isRead (retry + 1) err buf x).xfers = x + (retry + 1) := by
  intro retry
  induction retry with
  | zero =>
    intro err buf x hfail
    have hx : ¬ (a.outcome x).ret ≥ 0 := by
      have := hfail 0 (by omega)
      simp only [Nat.add_zero] at this
      omega
    simp [i2c_retry_loop, hx]
  | succ n ih =>
    intro err buf x hfail
    have hx : ¬ (a.outcome x).ret ≥ 0 := by
      have := hfail 0 (by omega)
      simp only [Nat.add_zero] at this
      omega
    have hstep := ih (a.outcome x).ret buf (x + 1)
      (fun j hj => by
        have := hfail (j + 1) (by omega)
        rwa [show x + 1 + j = x + (j + 1) by omega])
    rw [i2c_retry_loop]
    simp only [hx, if_false]
    rw [show x + 1 + n = x + (n + 1) by omega] at hstep
    refine ⟨hstep.1, hstep.2.1, ?_⟩
    rw [hstep.2.2]
    omega

/-- A value the loop returns from inside is a transfer result that is not
negative. -/
theorem i2c_retry_loop_returned_nonneg (a : i2c_adapter) (isRead : Bool) :
    ∀ (retry : Nat) (err : Int) (buf x : Nat) (r : Int),
      (i2c_retry_loop a isRead retry err buf x).returned = some r → 0 ≤ r := by
  intro retry
  induction retry with
  | zero => intro err buf x r h; simp [i2c_retry_loop] at h
  | succ n ih =>
    intro err buf x r h
    rw [i2c_retry_loop] at h
    by_cases hx : (a.outcome x).ret ≥ 0
    · simp only [hx, if_true, Option.some.injEq] at h
      omega
    · simp only [hx, if_false] at h
      exact ih _ _ _ _ h

/-! ## What register access leaves alone -/

/-- A register read changes nothing but the transfer count and the log. -/
theorem cm3663_i2c_read_st (s : cm3663_data) (addr val : Nat) :
    (cm3663_i2c_read s addr val).st =
      { s with xfers := (cm3663_i2c_read s addr val).st.xfers,
               trace := s.trace ++ [Action.i2c_read addr] } := by
  unfold cm3663_i2c_read
  dsimp only
  cases s.i2c_client with
  | none => rfl
  | some c =>
    dsimp only
    cases c.adapter with
    | none => rfl
    | some a =>
      dsimp only
      cases (i2c_retry_loop a true 10 0 val s.xfers).returned with
      | some e => rfl
      | none =>
        dsimp only
        split <;> rfl

/-- A register write changes nothing but the transfer count and the log. -/
theorem cm3663_i2c_write_st (s : cm3663_data) (addr val : Nat) :
    (cm3663_i2c_write s addr val).st =
      { s with xfers := (cm3663_i2c_write s addr val).st.xfers,
               trace := s.trace ++ [Action.i2c_write addr val] } := by
  unfold cm3663_i2c_write
  dsimp only
  cases s.i2c_client with
  | none => rfl
  | some c =>
    dsimp only
    cases c.adapter with
    | none => rfl
    | some a =>
      dsimp only
      cases (i2c_retry_loop a false 10 0 val s.xfers).returned with
      | some e => rfl
      | none => rfl

@[simp] theorem cm3663_i2c_read_trace (s : cm3663_data) (addr val : Nat) :
    (cm3663_i2c_read s addr val).st.trace = s.trace ++ [Action.i2c_read addr] := by
  rw [cm3663_i2c_read_st]

@[simp] theorem cm3663_i2c_read_power_state (s : cm3663_data) (addr val : Nat) :
    (cm3663_i2c_read s addr val).st.power_state = s.power_state := by
  rw [cm3663_i2c_read_st]

@[simp] theorem cm3663_i2c_read_light_count (s : cm3663_data) (addr val : Nat) :
    (cm3663_i2c_read s addr val).st.light_count = s.light_count := by
  rw [cm3663_i2c_read_st]

@[simp] theorem cm3663_i2c_read_light_buffer (s : cm3663_data) (addr val : Nat) :
    (cm3663_i2c_read s addr val).st.light_buffer = s.light_buffer := by
  rw [cm3663_i2c_read_st]

@[simp] theorem cm3663_i2c_read_light_poll_delay (s : cm3663_data) (addr val : Nat) :
    (cm3663_i2c_read s addr val).st.light_poll_delay = s.light_poll_delay := by
  rw [cm3663_i2c_read_st]

@[simp] theorem cm3663_i2c_read_rail_on (s : cm3663_data) (addr val : Nat) :
    (cm3663_i2c_read s addr val).st.rail_on = s.rail_on := by
  rw [cm3663_i2c_read_st]

@[simp] theorem cm3663_i2c_read_irq_enabled (s : cm3663_data) (addr val : Nat) :
    (cm3663_i2c_read s addr val).st.irq_enabled = s.irq_enabled := by
  rw [cm3663_i2c_read_st]

@[simp] theorem cm3663_i2c_read_i2c_client (s : cm3663_data) (addr val : Nat) :
    (cm3663_i2c_read s addr val).st.i2c_client = s.i2c_client := by
  rw [cm3663_i2c_read_st]

@[simp] theorem cm3663_i2c_write_trace (s : cm3663_data) (addr val : Nat) :
    (cm3663_i2c_write s addr val).st.trace = s.trace ++ [Action.i2c_write addr val] := by
  rw [cm3663_i2c_write_st]

@[simp] theorem cm3663_i2c_write_power_state (s : cm3663_data) (addr val : Nat) :
    (cm3663_i2c_write s addr val).st.power_state = s.power_state := by
  rw [cm3663_i2c_write_st]

@[simp] theorem cm3663_i2c_write_light_count (s : cm3663_data) (addr val : Nat) :
    (cm3663_i2c_write s addr val).st.light_count = s.light_count := by
  rw [cm3663_i2c_write_st]

@[simp] theorem cm3663_i2c_write_light_buffer (s : cm3663_data) (addr val : Nat) :
    (cm3663_i2c_write s addr val).st.light_buffer = s.light_buffer := by
  rw [cm3663_i2c_write_st]

@[simp] theorem cm3663_i2c_write_light_poll_delay (s : cm3663_data) (addr val : Nat) :
    (cm3663_i2c_write s addr val).st.light_poll_delay = s.light_poll_delay := by
  rw [cm3663_i2c_write_st]

@[simp] theorem cm3663_i2c_write_rail_on (s : cm3663_data) (addr val : Nat) :
    (cm3663_i2c_write s addr val).st.rail_on = s.rail_on := by
  rw [cm3663_i2c_write_st]

@[simp] theorem cm3663_i2c_write_irq_enabled (s : cm3663_data) (addr val : Nat) :
    (cm3663_i2c_write s addr val).st.irq_enabled = s.irq_enabled := by
  rw [cm3663_i2c_write_st]

@[simp] theorem cm3663_i2c_write_i2c_client (s : cm3663_data) (addr val : Nat) :
    (cm3663_i2c_write s addr val).st.i2c_client = s.i2c_client := by
  rw [cm3663_i2c_write_st]

/-- The log grows by exactly `l` between `s` and `t`. -/
theorem newActions_of_trace (s t : cm3663_data) (l : List Action)
    (h : t.trace = s.trace ++ l) : newActions s t = l := by
  simp [newActions, h]

/-! ## Register access: the retry budget -/

/-- A register read with client and adapter present, in terms of the loop. -/
theorem cm3663_i2c_read_eq (s : cm3663_data) (client : i2c_client) (a : i2c_adapter)
    (addr val : Nat) (hclient : s.i2c_client = some client)
    (hadapter : client.adapter = some a) :
    (cm3663_i2c_read s addr val).ret =
        (match (i2c_retry_loop a true 10 0 val s.xfers).returned with
          | some err => err
          | none => if addr = REGS_ARA then 0 else (i2c_retry_loop a true 10 0 val s.xfers).err) ∧
      (cm3663_i2c_read s addr val).st.xfers = (i2c_retry_loop a true 10 0 val s.xfers).xfers := by
  unfold cm3663_i2c_read
  simp only [hclient, hadapter]
  cases (i2c_retry_loop a true 10 0 val s.xfers).returned with
  | some e => exact ⟨rfl, rfl⟩
  | none =>
    dsimp only
    split <;> exact ⟨rfl, rfl⟩

/-- A register write with client and adapter present, in terms of the loop. -/
theorem cm3663_i2c_write_eq (s : cm3663_data) (client : i2c_client) (a : i2c_adapter)
    (addr val : Nat) (hclient : s.i2c_client = some client)
    (hadapter : client.adapter = some a) :
    (cm3663_i2c_write s addr val).ret =
        (match (i2c_retry_loop a false 10 0 val s.xfers).returned with
          | some err => err
          | none => (i2c_retry_loop a false 10 0 val s.xfers).err) ∧
      (cm3663_i2c_write s addr val).st.xfers = (i2c_retry_loop a false 10 0 val s.xfers).xfers := by
  unfold cm3663_i2c_write
  simp only [hclient, hadapter]
  cases (i2c_retry_loop a false 10 0 val s.xfers).returned with
  | some e => exact ⟨rfl, rfl⟩
  | none => exact ⟨rfl, rfl⟩

/-- C1: with client and adapter present, `cm3663_i2c_read` on an address other
than the alarm address `0x18`, and `cm3663_i2c_write` on every address, run
transfers until the first one whose result is not negative and return that
result at once (after `k` failures exactly `k + 1` transfers have been run);
when the first 10 transfers all fail they run exactly 10 transfers and return
the negative result of the tenth. -/
theorem i2c_retry_budget (s : cm3663_data) (client : i2c_client) (a : i2c_adapter)
    (addr waddr val wval : Nat)
    (hclient : s.i2c_client = some client) (hadapter : client.adapter = some a)
    (haddr : addr ≠ REGS_ARA) :
    (∀ k, k < 10 → (∀ j, j < k → (a.outcome (s.xfers + j)).ret < 0) →
        0 ≤ (a.outcome (s.xfers + k)).ret →
        ((cm3663_i2c_read s addr val).ret = (a.outcome (s.xfers + k)).ret ∧
          (cm3663_i2c_read s addr val).st.xfers = s.xfers + (k + 1)) ∧
        ((cm3663_i2c_write s waddr wval).ret = (a.outcome (s.xfers + k)).ret ∧
          (cm3663_i2c_write s waddr wval).st.xfers = s.xfers + (k + 1))) ∧
    ((∀ j, j < 10 → (a.outcome (s.xfers + j)).ret < 0) →
        ((cm3663_i2c_read s addr val).ret = (a.outcome (s.xfers + 9)).ret ∧
          (cm3663_i2c_read s addr val).ret < 0 ∧
          (cm3663_i2c_read s addr val).st.xfers = s.xfers + 10) ∧
        ((cm3663_i2c_write s waddr wval).ret = (a.outcome (s.xfers + 9)).ret ∧
          (cm3663_i2c_write s waddr wval).ret < 0 ∧
          (cm3663_i2c_write s waddr wval).st.xfers = s.xfers + 10)) := by
  obtain ⟨hr, hrx⟩ := cm3663_i2c_read_eq s client a addr val hclient hadapter
  obtain ⟨hw, hwx⟩ := cm3663_i2c_write_eq s client a waddr wval hclient hadapter
  constructor
  · intro k hk hfail hok
    obtain ⟨r1, r2⟩ := i2c_retry_loop_success a true 10 0 val s.xfers k hk hfail hok
    obtain ⟨w1, w2⟩ := i2c_retry_loop_success a false 10 0 wval s.xfers k hk hfail hok
    rw [hr, hrx, hw, hwx, r1, r2, w1, w2]
    exact ⟨⟨rfl, rfl⟩, rfl, rfl⟩
  · intro hfail
    obtain ⟨r1, r2, r3⟩ := i2c_retry_loop_exhaust a true 9 0 val s.xfers hfail
    obtain ⟨w1, w2, w3⟩ := i2c_retry_loop_exhaust a false 9 0 wval s.xfers hfail
    have h9 := hfail 9 (by omega)
    rw [hr, hrx, hw, hwx, r1, r2, r3, w1, w2, w3]
    rw [if_neg haddr]
    exact ⟨⟨rfl, h9, rfl⟩, rfl, h9, rfl⟩

/-- C1, at concrete inputs: on a bus whose first three transfers fail a read
of the ALS command register returns the fourth result after 4 transfers, and on
a dead bus read and write give up after exactly 10 transfers. -/
theorem i2c_retry_budget_witness :
    ((cm3663_i2c_read (probed (some ⟨some bus_flaky⟩)) REGS_ALS_CMD 0).ret = 1 ∧
      (cm3663_i2c_read (probed (some ⟨some bus_flaky⟩)) REGS_ALS_CMD 0).st.xfers = 4) ∧
    ((cm3663_i2c_read (probed (some ⟨some bus_dead⟩)) REGS_ALS_CMD 0).ret = -5 ∧
      (cm3663_i2c_read (probed (some ⟨some bus_dead⟩)) REGS_ALS_CMD 0).st.xfers = 10) ∧
    ((cm3663_i2c_write (probed (some ⟨some bus_dead⟩)) REGS_ARA 1).ret = -5 ∧
      (cm3663_i2c_write (probed (some ⟨some bus_dead⟩)) REGS_ARA 1).st.xfers = 10) := by
  have hflaky := i2c_retry_budget (probed (some ⟨some bus_flaky⟩)) ⟨some bus_flaky⟩ bus_flaky
    REGS_ALS_CMD REGS_ARA 0 1 rfl rfl (by decide)
  have hdead := i2c_retry_budget (probed (some ⟨some bus_dead⟩)) ⟨some bus_dead⟩ bus_dead
    REGS_ALS_CMD REGS_ARA 0 1 rfl rfl (by decide)
  have h3 := (hflaky.1 3 (by decide)
    (fun j hj => by
      have : j = 0 ∨ j = 1 ∨ j = 2 := by omega
      rcases this with h | h | h <;> subst h <;> decide)
    (by decide)).1
  have h10 := hdead.2 (fun j _ => by simp [bus_dead])
  exact ⟨h3, ⟨h10.1.1, h10.1.2.2⟩, ⟨h10.2.1, h10.2.2.2⟩⟩

/-- The guard of lines 136-137: without a client or without an adapter a
register read returns `-ENODEV` and runs no transfer.  The probe leaves no
such state: it dereferences `client->adapter` (line 897) before it stores the
client (line 909, the only assignment of `i2c_client`). -/
theorem cm3663_i2c_read_enodev (s : cm3663_data) (addr val : Nat)
    (h : s.i2c_client = none ∨ ∃ client, s.i2c_client = some client ∧ client.adapter = none) :
    (cm3663_i2c_read s addr val).ret = -ENODEV ∧
    (cm3663_i2c_read s addr val).st.xfers = s.xfers := by
  unfold cm3663_i2c_read
  rcases h with h | ⟨client, h, hadapter⟩
  · simp [h]
  · simp [h, hadapter]

/-- C2: for every driver state in which the driver can run, that is with the
bus client and its adapter in place (the probe dereferences `client->adapter`
at line 897 and stores the client at line 909, the only assignment, and no
call changes it: `run_calls_keeps_client`), and for every sequence of transfer
outcomes, a read of the alarm register `REGS_ARA` (0x18) returns a value that
is not negative; when all 10 transfers fail it returns 0 after exactly 10
transfers. -/
theorem alarm_read_succeeds (s : cm3663_data) (client : i2c_client) (a : i2c_adapter)
    (val : Nat) (hclient : s.i2c_client = some client)
    (hadapter : client.adapter = some a) :
    0 ≤ (cm3663_i2c_read s REGS_ARA val).ret ∧
    ((∀ j, j < 10 → (a.outcome (s.xfers + j)).ret < 0) →
      (cm3663_i2c_read s REGS_ARA val).ret = 0 ∧
      (cm3663_i2c_read s REGS_ARA val).st.xfers = s.xfers + 10) := by
  obtain ⟨hr, hrx⟩ := cm3663_i2c_read_eq s client a REGS_ARA val hclient hadapter
  constructor
  · rw [hr]
    cases h : (i2c_retry_loop a true 10 0 val s.xfers).returned with
    | some e => exact i2c_retry_loop_returned_nonneg a true 10 0 val s.xfers e h
    | none => simp
  · intro hfail
    obtain ⟨r1, _, r3⟩ := i2c_retry_loop_exhaust a true 9 0 val s.xfers hfail
    rw [hr, hrx, r1, r3]
    simp

/-- C2, at a concrete input: on a dead bus the alarm read returns 0 after 10
transfers. -/
theorem alarm_read_succeeds_witness :
    0 ≤ (cm3663_i2c_read (probed (some ⟨some bus_dead⟩)) REGS_ARA 0).ret ∧
    (cm3663_i2c_read (probed (some ⟨some bus_dead⟩)) REGS_ARA 0).st.xfers = 10 :=
  ⟨(alarm_read_succeeds (probed (some ⟨some bus_dead⟩)) ⟨some bus_dead⟩ bus_dead 0 rfl rfl).1,
   ((alarm_read_succeeds (probed (some ⟨some bus_dead⟩)) ⟨some bus_dead⟩ bus_dead 0 rfl rfl).2
      (fun j _ => by simp [bus_dead])).2⟩

/-! ## The light sampler: buckets -/

/-- For a raw value that does not exceed the last threshold the scan stays in
the table and ends with the least index whose threshold is not below the
value. -/
theorem adc_scan_in_table (als : Int) (h : als ≤ 15000) :
    adc_scan als (ARRAY_SIZE_adc_table + 1) 0 = ScanExit.found (bucket_index als) := by
  by_cases h0 : als ≤ 15
  · simp [adc_scan, ARRAY_SIZE_adc_table, adc_table, bucket_index, List.findIdx_cons, h0]
  · by_cases h1 : als ≤ 150
    · simp [adc_scan, ARRAY_SIZE_adc_table, adc_table, bucket_index, List.findIdx_cons, h0, h1]
    · by_cases h2 : als ≤ 1500
      · simp [adc_scan, ARRAY_SIZE_adc_table, adc_table, bucket_index, List.findIdx_cons,
          h0, h1, h2]
      · simp [adc_scan, ARRAY_SIZE_adc_table, adc_table, bucket_index, List.findIdx_cons,
          h0, h1, h2, h]

/-- One tick on a raw value that does not exceed the last threshold. -/
theorem cm3663_work_func_light_in_table (s : cm3663_data) (als : Int) (h : als ≤ 15000) :
    cm3663_work_func_light s als =
      some (if s.light_buffer = (bucket_index als : Int) then
              (if s.light_count = LIGHT_BUFFER_NUM then
                { input_report_abs { s with light_count := s.light_count + 1 } (als + 1) with
                  light_count := 0 }
              else { s with light_count := s.light_count + 1 })
            else { s with light_buffer := (bucket_index als : Int), light_count := 0 }) := by
  unfold cm3663_work_func_light
  rw [adc_scan_in_table als h]
  dsimp only
  split
  · split <;> rfl
  · rfl

/-- A run of the sampler, one tick unfolded. -/
theorem light_run_cons_some (s t : cm3663_data) (als : Int) (rest : List Int)
    (obs : List TickObs) (h1 : cm3663_work_func_light s als = some t)
    (h2 : light_run t rest = some obs) :
    light_run s (als :: rest) =
      some (⟨decide (t.light_buffer ≠ s.light_buffer), newActions s t⟩ :: obs) := by
  simp [light_run, h1, h2]

/-- The light sampler keeps `light_count` equal to the length of the current
run of stable samples modulo 6 and raises an event exactly when that length
reaches a multiple of 6. -/
theorem light_run_eq (raws : List Int) :
    ∀ (s : cm3663_data) (b run : Nat), s.light_buffer = (b : Int) →
      s.light_count = ((run % 6 : Nat) : Int) → (∀ r ∈ raws, r ≤ 15000) →
      light_run s raws = some (List.zipWith expected_tick (stable_runs b run raws) raws) := by
  induction raws with
  | nil => intro s b run _ _ _; rfl
  | cons als rest ih =>
    intro s b run hb hc hle
    have hals : als ≤ 15000 := hle als (List.mem_cons_self _ _)
    have hrest : ∀ r ∈ rest, r ≤ 15000 := fun r hr => hle r (List.mem_cons_of_mem _ hr)
    have hstep := cm3663_work_func_light_in_table s als hals
    by_cases hbk : bucket_index als = b
    · have hbuf : s.light_buffer = (bucket_index als : Int) := by rw [hb, hbk]
      rw [if_pos hbuf] at hstep
      by_cases h5 : s.light_count = LIGHT_BUFFER_NUM
      · have hrun : run % 6 = 5 := by
          rw [hc] at h5; simp only [LIGHT_BUFFER_NUM] at h5; omega
        have hnext : (run + 1) % 6 = 0 := by omega
        rw [if_pos h5] at hstep
        rw [light_run_cons_some s _ als rest _ hstep
          (ih _ b (run + 1) hb (by simp [hnext]) hrest)]
        simp [stable_runs, hbk, expected_tick, hnext, newActions, input_report_abs]
      · have hrun : run % 6 ≠ 5 := by
          intro h; apply h5; rw [hc, h]; rfl
        have hnext : (run + 1) % 6 = run % 6 + 1 := by omega
        rw [if_neg h5] at hstep
        rw [light_run_cons_some s _ als rest _ hstep
          (ih _ b (run + 1) hb (by rw [hnext]; simp [hc]) hrest)]
        have hne : ¬ (run + 1) % 6 = 0 := by omega
        simp [stable_runs, hbk, expected_tick, hne, newActions]
    · have hbuf : ¬ s.light_buffer = (bucket_index als : Int) := by
        rw [hb]; intro h; exact hbk (by exact_mod_cast h.symm)
      rw [if_neg hbuf] at hstep
      rw [light_run_cons_some s _ als rest _ hstep
        (ih _ (bucket_index als) 0 rfl rfl hrest)]
      have hne : ¬ ((bucket_index als : Int) = s.light_buffer) := fun h => hbuf h.symm
      simp [stable_runs, hbk, expected_tick, newActions, hne]

/-- The event budget of a run: six times the number of events is at most the
counter at the start plus the number of stable ticks. -/
theorem light_run_event_budget (raws : List Int) :
    ∀ (s : cm3663_data) (c : Nat), s.light_count = (c : Int) → (∀ r ∈ raws, r ≤ 15000) →
      ∃ obs, light_run s raws = some obs ∧ 6 * count_events obs ≤ c + count_stable obs := by
  induction raws with
  | nil => intro s c _ _; exact ⟨[], rfl, by simp [count_events, count_stable]⟩
  | cons als rest ih =>
    intro s c hc hle
    have hals : als ≤ 15000 := hle als (List.mem_cons_self _ _)
    have hrest : ∀ r ∈ rest, r ≤ 15000 := fun r hr => hle r (List.mem_cons_of_mem _ hr)
    have hstep := cm3663_work_func_light_in_table s als hals
    by_cases hbuf : s.light_buffer = (bucket_index als : Int)
    · rw [if_pos hbuf] at hstep
      by_cases h5 : s.light_count = LIGHT_BUFFER_NUM
      · have hc5 : c = 5 := by
          rw [hc] at h5; simp only [LIGHT_BUFFER_NUM] at h5; omega
        rw [if_pos h5] at hstep
        obtain ⟨obs, hobs, hbudget⟩ := ih
          { input_report_abs { s with light_count := s.light_count + 1 } (als + 1) with
            light_count := 0 } 0 rfl hrest
        refine ⟨_, light_run_cons_some s _ als rest obs hstep hobs, ?_⟩
        simp [count_events, count_stable, newActions, input_report_abs, Action.isEvent] at hbudget ⊢
        omega
      · rw [if_neg h5] at hstep
        obtain ⟨obs, hobs, hbudget⟩ := ih { s with light_count := s.light_count + 1 } (c + 1)
          (by simp [hc]) hrest
        refine ⟨_, light_run_cons_some s _ als rest obs hstep hobs, ?_⟩
        simp [count_events, count_stable, newActions] at hbudget ⊢
        omega
    · rw [if_neg hbuf] at hstep
      obtain ⟨obs, hobs, hbudget⟩ := ih
        { s with light_buffer := (bucket_index als : Int), light_count := 0 } 0 rfl hrest
      refine ⟨_, light_run_cons_some s _ als rest obs hstep hobs, ?_⟩
      have hne : ¬ ((bucket_index als : Int) = s.light_buffer) := fun h => hbuf h.symm
      simp [count_events, count_stable, newActions, hne] at hbudget ⊢
      omega

/-! ## What switching the light channel on and off does -/

theorem cm3663_light_enable_trace (s : cm3663_data) :
    (cm3663_light_enable s).trace = s.trace ++
      [Action.i2c_read REGS_ARA, Action.i2c_read REGS_ARA, Action.i2c_read REGS_ARA,
       Action.i2c_write REGS_INIT 0x20, Action.i2c_write REGS_ALS_CMD 0x00,
       Action.hrtimer_start s.light_poll_delay] := by
  simp [cm3663_light_enable, hrtimer_start, reg_defaults]

@[simp] theorem cm3663_light_enable_light_count (s : cm3663_data) :
    (cm3663_light_enable s).light_count = 0 := by
  simp [cm3663_light_enable, hrtimer_start]

@[simp] theorem cm3663_light_enable_light_buffer (s : cm3663_data) :
    (cm3663_light_enable s).light_buffer = 0 := by
  simp [cm3663_light_enable, hrtimer_start]

@[simp] theorem cm3663_light_enable_power_state (s : cm3663_data) :
    (cm3663_light_enable s).power_state = s.power_state := by
  simp [cm3663_light_enable, hrtimer_start]

@[simp] theorem cm3663_light_enable_light_poll_delay (s : cm3663_data) :
    (cm3663_light_enable s).light_poll_delay = s.light_poll_delay := by
  simp [cm3663_light_enable, hrtimer_start]

@[simp] theorem cm3663_light_enable_irq_enabled (s : cm3663_data) :
    (cm3663_light_enable s).irq_enabled = s.irq_enabled := by
  simp [cm3663_light_enable, hrtimer_start]

@[simp] theorem cm3663_light_enable_rail_on (s : cm3663_data) :
    (cm3663_light_enable s).rail_on = s.rail_on := by
  simp [cm3663_light_enable, hrtimer_start]

theorem cm3663_light_disable_trace (s : cm3663_data) :
    (cm3663_light_disable s).trace = s.trace ++
      [Action.i2c_write REGS_ALS_CMD 0x01, Action.hrtimer_cancel, Action.cancel_work_sync] := by
  simp [cm3663_light_disable, hrtimer_cancel, cancel_work_sync]

@[simp] theorem cm3663_light_disable_power_state (s : cm3663_data) :
    (cm3663_light_disable s).power_state = s.power_state := by
  simp [cm3663_light_disable, hrtimer_cancel, cancel_work_sync]

@[simp] theorem cm3663_light_disable_light_poll_delay (s : cm3663_data) :
    (cm3663_light_disable s).light_poll_delay = s.light_poll_delay := by
  simp [cm3663_light_disable, hrtimer_cancel, cancel_work_sync]

@[simp] theorem cm3663_light_disable_irq_enabled (s : cm3663_data) :
    (cm3663_light_disable s).irq_enabled = s.irq_enabled := by
  simp [cm3663_light_disable, hrtimer_cancel, cancel_work_sync]

@[simp] theorem cm3663_light_disable_rail_on (s : cm3663_data) :
    (cm3663_light_disable s).rail_on = s.rail_on := by
  simp [cm3663_light_disable, hrtimer_cancel, cancel_work_sync]

/-! ## The light sampler: when events are raised -/

/-- C3, counterexample: on the raw sequence `[10,10,10,10,10,16,16,16,16,16]`
fed from the freshly enabled state the bucket changes at index 5 and no event
is raised at all, neither at index 9 nor elsewhere; and on six samples of 10
an event with value 11 is raised at index 5 although the bucket never
changed. -/
theorem light_event_not_on_fifth_sample :
    light_run (cm3663_light_enable (probed (some ⟨some bus_ok⟩)))
        [10, 10, 10, 10, 10, 16, 16, 16, 16, 16] =
      some [⟨false, []⟩, ⟨false, []⟩, ⟨false, []⟩, ⟨false, []⟩, ⟨false, []⟩,
            ⟨true, []⟩, ⟨false, []⟩, ⟨false, []⟩, ⟨false, []⟩, ⟨false, []⟩] ∧
    light_run (cm3663_light_enable (probed (some ⟨some bus_ok⟩)))
        [10, 10, 10, 10, 10, 10] =
      some [⟨false, []⟩, ⟨false, []⟩, ⟨false, []⟩, ⟨false, []⟩, ⟨false, []⟩,
            ⟨false, [Action.input_report_abs 11]⟩] := by
  decide

/-- C3, amended: from the state that enabling Light sets, for every sequence of
raw values none of which exceeds 15000, the sampler runs through and a tick
raises an event exactly when its bucket equals the bucket stored by the tick
before (bucket 0 at the start) and the number of consecutive such ticks, this
one included, is a multiple of 6; the event carries that tick's raw + 1.  The
tick on which the bucket changes is not counted, and no bucket change is
needed for an event. -/
theorem light_event_on_sixth_stable_sample (s : cm3663_data) (raws : List Int)
    (hraws : ∀ r ∈ raws, r ≤ 15000) :
    light_run (cm3663_light_enable s) raws =
      some (List.zipWith expected_tick (stable_runs 0 0 raws) raws) :=
  light_run_eq raws (cm3663_light_enable s) 0 0 (by simp) (by simp) hraws

/-- C3, amended, at a concrete input: with seven samples of 16 after five
samples of 10 the one event comes at index 11, with value 17. -/
theorem light_event_on_sixth_stable_sample_witness :
    (∀ r ∈ [10, 10, 10, 10, 10, 16, 16, 16, 16, 16, 16, (16 : Int)], r ≤ 15000) ∧
    light_run (cm3663_light_enable (probed (some ⟨some bus_ok⟩)))
        [10, 10, 10, 10, 10, 16, 16, 16, 16, 16, 16, 16] =
      some [⟨false, []⟩, ⟨false, []⟩, ⟨false, []⟩, ⟨false, []⟩, ⟨false, []⟩,
            ⟨true, []⟩, ⟨false, []⟩, ⟨false, []⟩, ⟨false, []⟩, ⟨false, []⟩, ⟨false, []⟩,
            ⟨false, [Action.input_report_abs 17]⟩] :=
  ⟨by decide,
   (light_event_on_sixth_stable_sample (probed (some ⟨some bus_ok⟩))
      [10, 10, 10, 10, 10, 16, 16, 16, 16, 16, 16, 16] (by decide)).trans (by decide)⟩

/-- C4, counterexample: six samples of 10 from the freshly enabled state raise
one event although no tick has a bucket index that differs from the stored
one, and twelve samples raise two. -/
theorem light_event_without_bucket_change :
    (light_run (cm3663_light_enable (probed (some ⟨some bus_ok⟩)))
        [10, 10, 10, 10, 10, 10]).map (fun obs => (count_events obs, count_changed obs)) =
      some (1, 0) ∧
    (light_run (cm3663_light_enable (probed (some ⟨some bus_ok⟩)))
        [10, 10, 10, 10, 10, 10, 10, 10, 10, 10, 10, 10]).map
          (fun obs => (count_events obs, count_changed obs)) =
      some (2, 0) := by
  decide

/-- C4, amended: for every sequence of raw values none of which exceeds 15000,
fed from the freshly enabled state, the sampler runs through and raises at most
one event per six ticks whose bucket index equals the bucket index stored from
the previous tick: six times the number of events is at most the number of
such ticks. -/
theorem light_events_at_most_sixth_of_stable_ticks (s : cm3663_data) (raws : List Int)
    (hraws : ∀ r ∈ raws, r ≤ 15000) :
    ∃ obs, light_run (cm3663_light_enable s) raws = some obs ∧
      6 * count_events obs ≤ count_stable obs := by
  obtain ⟨obs, hobs, hbudget⟩ :=
    light_run_event_budget raws (cm3663_light_enable s) 0 (by simp) hraws
  exact ⟨obs, hobs, by omega⟩

/-- C4, amended, at a concrete input: twelve samples of 10. -/
theorem light_events_at_most_sixth_of_stable_ticks_witness :
    (∀ r ∈ [10, 10, 10, 10, 10, 10, 10, 10, 10, 10, 10, (10 : Int)], r ≤ 15000) ∧
    ∃ obs, light_run (cm3663_light_enable (probed (some ⟨some bus_ok⟩)))
        [10, 10, 10, 10, 10, 10, 10, 10, 10, 10, 10, 10] = some obs ∧
      6 * count_events obs ≤ count_stable obs :=
  ⟨by decide,
   light_events_at_most_sixth_of_stable_ticks (probed (some ⟨some bus_ok⟩))
      [10, 10, 10, 10, 10, 10, 10, 10, 10, 10, 10, 10] (by decide)⟩

/-! ## The enable attributes -/

/-- A request that equals the computed `enabled` value leaves the driver as it
is. -/
theorem cm3663_light_enable_store_same (s : cm3663_data) (enable : Int)
    (h : enable = ((s.power_state &&& LIGHT_ENABLED : Nat) : Int)) :
    cm3663_light_enable_store s enable = s := by
  simp [cm3663_light_enable_store, h]

/-- The enable branch of the light attribute. -/
theorem cm3663_light_enable_store_on (s : cm3663_data) (enable : Int)
    (h : enable ≠ ((s.power_state &&& LIGHT_ENABLED : Nat) : Int)) (h0 : enable ≠ 0) :
    newActions s (cm3663_light_enable_store s enable) =
        (if s.power_state = 0 then [Action.proximity_power true] else []) ++
        [Action.i2c_read REGS_ARA, Action.i2c_read REGS_ARA, Action.i2c_read REGS_ARA,
         Action.i2c_write REGS_INIT 0x20, Action.i2c_write REGS_ALS_CMD 0x00,
         Action.hrtimer_start s.light_poll_delay] ∧
      (cm3663_light_enable_store s enable).power_state = s.power_state ||| LIGHT_ENABLED := by
  unfold cm3663_light_enable_store
  simp only [h, h0, if_false, ne_eq, not_false_eq_true, if_true]
  constructor
  · apply newActions_of_trace
    rw [cm3663_light_enable_trace]
    by_cases hp : s.power_state = 0 <;> simp [hp, proximity_power]
  · by_cases hp : s.power_state = 0 <;> simp [hp, proximity_power]

/-- The disable branch of the light attribute. -/
theorem cm3663_light_enable_store_off (s : cm3663_data)
    (h : s.power_state &&& LIGHT_ENABLED ≠ 0) :
    newActions s (cm3663_light_enable_store s 0) =
        [Action.i2c_write REGS_ALS_CMD 0x01, Action.hrtimer_cancel, Action.cancel_work_sync] ∧
      (cm3663_light_enable_store s 0).power_state =
        s.power_state &&& (0xFF ^^^ LIGHT_ENABLED) ∧
      (cm3663_light_enable_store s 0).rail_on = s.rail_on := by
  have h' : ¬ ((0 : Int) = ((s.power_state &&& LIGHT_ENABLED : Nat) : Int)) := by
    intro hh; apply h; exact_mod_cast hh.symm
  unfold cm3663_light_enable_store
  simp only [h', if_false, ne_eq, not_true_eq_false]
  refine ⟨?_, ?_, ?_⟩
  · apply newActions_of_trace
    rw [cm3663_light_disable_trace]
  · simp
  · simp

/-- A request that equals the computed `enabled` value leaves the driver as it
is. -/
theorem cm3663_proximity_enable_store_same (s : cm3663_data) (enable : Int)
    (h : enable = (((s.power_state &&& PROXIMITY_ENABLED) >>> 1 : Nat) : Int)) :
    cm3663_proximity_enable_store s enable = s := by
  simp [cm3663_proximity_enable_store, h]

/-- The driver just before the call `enable_irq` of the enable branch of the
proximity attribute. -/
theorem cm3663_proximity_enable_store_on (s : cm3663_data) (enable : Int)
    (h : enable ≠ (((s.power_state &&& PROXIMITY_ENABLED) >>> 1 : Nat) : Int))
    (h0 : enable ≠ 0) :
    ∃ mid, cm3663_proximity_enable_store s enable = enable_irq mid ∧
      mid.power_state = s.power_state ||| PROXIMITY_ENABLED ∧
      mid.irq_enabled = s.irq_enabled ∧
      mid.trace = s.trace ++
        ((if s.power_state = 0 then [Action.proximity_power true] else []) ++
        [Action.i2c_read REGS_ARA, Action.i2c_read REGS_ARA,
         Action.i2c_write REGS_INIT 0x20, Action.i2c_write REGS_PS_THD 0x0A,
         Action.i2c_write REGS_PS_CMD 0x30]) := by
  unfold cm3663_proximity_enable_store
  simp only [h, h0, if_false, ne_eq, not_false_eq_true, if_true]
  refine ⟨_, rfl, ?_, ?_, ?_⟩
  · by_cases hp : s.power_state = 0 <;> simp [hp, proximity_power]
  · by_cases hp : s.power_state = 0 <;> simp [hp, proximity_power]
  · by_cases hp : s.power_state = 0 <;>
      simp [hp, proximity_power, reg_defaults, PROXIMITY_THRESHOLD]

/-- The disable branch of the proximity attribute. -/
theorem cm3663_proximity_enable_store_off (s : cm3663_data)
    (h : (s.power_state &&& PROXIMITY_ENABLED) >>> 1 ≠ 0) :
    newActions s (cm3663_proximity_enable_store s 0) =
        [Action.disable_irq, Action.i2c_write REGS_PS_CMD 0x01] ∧
      (cm3663_proximity_enable_store s 0).power_state =
        s.power_state &&& (0xFF ^^^ PROXIMITY_ENABLED) ∧
      (cm3663_proximity_enable_store s 0).rail_on = s.rail_on := by
  have h' : ¬ ((0 : Int) = (((s.power_state &&& PROXIMITY_ENABLED) >>> 1 : Nat) : Int)) := by
    intro hh; apply h; exact_mod_cast hh.symm
  unfold cm3663_proximity_enable_store
  simp only [h', if_false, ne_eq, not_true_eq_false]
  refine ⟨?_, ?_, ?_⟩
  · apply newActions_of_trace
    simp [disable_irq]
  · simp [disable_irq]
  · simp [disable_irq]

/-- With only the two flag bits in `power_state`, both flags are clear exactly
when `power_state` is 0. -/
theorem flags_clear_iff (p : Nat) (hp : p < 4) :
    (p &&& LIGHT_ENABLED = 0 ∧ p &&& PROXIMITY_ENABLED = 0) ↔ p = 0 := by
  interval_cases p <;> decide

/-- C5, counterexample: with Light the only enabled sensor, disabling Light
clears the flag and makes three calls, none of them a rail call, and the rail
stays on; the same holds for Proximity as the only enabled sensor. -/
theorem disable_only_sensor_keeps_rail :
    ((cm3663_light_enable_store (probed (some ⟨some bus_ok⟩)) 1).power_state = LIGHT_ENABLED ∧
      newActions (cm3663_light_enable_store (probed (some ⟨some bus_ok⟩)) 1)
          (cm3663_light_enable_store
            (cm3663_light_enable_store (probed (some ⟨some bus_ok⟩)) 1) 0) =
        [Action.i2c_write 0x20 0x01, Action.hrtimer_cancel, Action.cancel_work_sync] ∧
      (cm3663_light_enable_store
          (cm3663_light_enable_store (probed (some ⟨some bus_ok⟩)) 1) 0).power_state = 0 ∧
      (cm3663_light_enable_store
          (cm3663_light_enable_store (probed (some ⟨some bus_ok⟩)) 1) 0).rail_on = true) ∧
    ((cm3663_proximity_enable_store (probed (some ⟨some bus_ok⟩)) 1).power_state =
        PROXIMITY_ENABLED ∧
      newActions (cm3663_proximity_enable_store (probed (some ⟨some bus_ok⟩)) 1)
          (cm3663_proximity_enable_store
            (cm3663_proximity_enable_store (probed (some ⟨some bus_ok⟩)) 1) 0) =
        [Action.disable_irq, Action.i2c_write 0xB0 0x01] ∧
      (cm3663_proximity_enable_store
          (cm3663_proximity_enable_store (probed (some ⟨some bus_ok⟩)) 1) 0).power_state = 0 ∧
      (cm3663_proximity_enable_store
          (cm3663_proximity_enable_store (probed (some ⟨some bus_ok⟩)) 1) 0).rail_on = true) := by
  decide

/-- C5, amended: for every power state, disabling a sensor through
`cm3663_light_enable_store` or `cm3663_proximity_enable_store` issues no rail
power call at all and leaves the rail as it was, whether the sensor was the
only one enabled or not. -/
theorem disable_store_issues_no_rail_call (s : cm3663_data) :
    ((newActions s (cm3663_light_enable_store s 0)).filter Action.isRail = [] ∧
      (cm3663_light_enable_store s 0).rail_on = s.rail_on) ∧
    ((newActions s (cm3663_proximity_enable_store s 0)).filter Action.isRail = [] ∧
      (cm3663_proximity_enable_store s 0).rail_on = s.rail_on) := by
  constructor
  · by_cases h : s.power_state &&& LIGHT_ENABLED = 0
    · rw [cm3663_light_enable_store_same s 0 (by simp [h])]
      simp [newActions]
    · obtain ⟨h1, _, h3⟩ := cm3663_light_enable_store_off s h
      rw [h1, h3]
      exact ⟨by decide, rfl⟩
  · by_cases h : (s.power_state &&& PROXIMITY_ENABLED) >>> 1 = 0
    · rw [cm3663_proximity_enable_store_same s 0 (by simp [h])]
      simp [newActions]
    · obtain ⟨h1, _, h3⟩ := cm3663_proximity_enable_store_off s h
      rw [h1, h3]
      exact ⟨by decide, rfl⟩

/-- C6: for every power state (only the two flag bits are ever set) and every
request to enable (a non-zero value), each of the two enable attributes issues
`proximity_power(true)` exactly when both flags were clear beforehand, and
then as its first call, before any register access, with no other rail call;
when a flag was set it issues no rail call at all. -/
theorem enable_store_powers_rail_iff_off (s : cm3663_data) (enable : Int)
    (hflags : s.power_state < 4) (hreq : enable ≠ 0) :
    ((s.power_state &&& LIGHT_ENABLED = 0 ∧ s.power_state &&& PROXIMITY_ENABLED = 0) →
      (∃ rest, newActions s (cm3663_light_enable_store s enable) =
          Action.proximity_power true :: rest ∧ rest.filter Action.isRail = []) ∧
      (∃ rest, newActions s (cm3663_proximity_enable_store s enable) =
          Action.proximity_power true :: rest ∧ rest.filter Action.isRail = [])) ∧
    (¬ (s.power_state &&& LIGHT_ENABLED = 0 ∧ s.power_state &&& PROXIMITY_ENABLED = 0) →
      (newActions s (cm3663_light_enable_store s enable)).filter Action.isRail = [] ∧
      (newActions s (cm3663_proximity_enable_store s enable)).filter Action.isRail = []) := by
  constructor
  · intro hclear
    have hp : s.power_state = 0 := (flags_clear_iff _ hflags).1 hclear
    have hl : enable ≠ ((s.power_state &&& LIGHT_ENABLED : Nat) : Int) := by
      rw [hp]; exact hreq
    have hx : enable ≠ (((s.power_state &&& PROXIMITY_ENABLED) >>> 1 : Nat) : Int) := by
      rw [hp]; exact hreq
    constructor
    · refine ⟨[Action.i2c_read REGS_ARA, Action.i2c_read REGS_ARA, Action.i2c_read REGS_ARA,
         Action.i2c_write REGS_INIT 0x20, Action.i2c_write REGS_ALS_CMD 0x00,
         Action.hrtimer_start s.light_poll_delay], ?_, rfl⟩
      rw [(cm3663_light_enable_store_on s enable hl hreq).1, if_pos hp]
      rfl
    · obtain ⟨mid, hmid, _, _, htrace⟩ := cm3663_proximity_enable_store_on s enable hx hreq
      refine ⟨[Action.i2c_read REGS_ARA, Action.i2c_read REGS_ARA,
         Action.i2c_write REGS_INIT 0x20, Action.i2c_write REGS_PS_THD 0x0A,
         Action.i2c_write REGS_PS_CMD 0x30, Action.enable_irq], ?_, rfl⟩
      rw [hmid]
      apply newActions_of_trace
      simp [enable_irq, htrace, if_pos hp]
  · intro hset
    have hp : s.power_state ≠ 0 := fun h => hset ((flags_clear_iff _ hflags).2 h)
    constructor
    · by_cases hl : enable = ((s.power_state &&& LIGHT_ENABLED : Nat) : Int)
      · rw [cm3663_light_enable_store_same s enable hl]
        simp [newActions]
      · rw [(cm3663_light_enable_store_on s enable hl hreq).1, if_neg hp]
        rfl
    · by_cases hx : enable = (((s.power_state &&& PROXIMITY_ENABLED) >>> 1 : Nat) : Int)
      · rw [cm3663_proximity_enable_store_same s enable hx]
        simp [newActions]
      · obtain ⟨mid, hmid, _, _, htrace⟩ := cm3663_proximity_enable_store_on s enable hx hreq
        rw [hmid, newActions_of_trace s (enable_irq mid)
          ([Action.i2c_read REGS_ARA, Action.i2c_read REGS_ARA,
            Action.i2c_write REGS_INIT 0x20, Action.i2c_write REGS_PS_THD 0x0A,
            Action.i2c_write REGS_PS_CMD 0x30] ++ [Action.enable_irq])
          (by simp [enable_irq, htrace, if_neg hp])]
        rfl

/-- C6, at concrete inputs: from the probed state (both flags clear) the rail
call comes first, and with Proximity already enabled enabling Light issues no
rail call. -/
theorem enable_store_powers_rail_iff_off_witness :
    ((probed (some ⟨some bus_ok⟩)).power_state < 4 ∧
      ∃ rest, newActions (probed (some ⟨some bus_ok⟩))
          (cm3663_light_enable_store (probed (some ⟨some bus_ok⟩)) 1) =
        Action.proximity_power true :: rest ∧ rest.filter Action.isRail = []) ∧
    ((cm3663_proximity_enable_store (probed (some ⟨some bus_ok⟩)) 1).power_state < 4 ∧
      (newActions (cm3663_proximity_enable_store (probed (some ⟨some bus_ok⟩)) 1)
        (cm3663_light_enable_store
          (cm3663_proximity_enable_store (probed (some ⟨some bus_ok⟩)) 1) 1)).filter
        Action.isRail = []) :=
  ⟨⟨by decide,
    ((enable_store_powers_rail_iff_off (probed (some ⟨some bus_ok⟩)) 1
      (by decide) (by decide)).1 (by decide)).1⟩,
   ⟨by decide,
    ((enable_store_powers_rail_iff_off
      (cm3663_proximity_enable_store (probed (some ⟨some bus_ok⟩)) 1) 1
      (by decide) (by decide)).2 (by decide)).1⟩⟩

/-- C7, at the failing input: with Light enabled a request value of 2 runs the
whole enable sequence of Light again and resets the channel state, and with
Proximity enabled a request value of 2 runs the enable sequence of Proximity
again, `enable_irq` included; neither call is a no-op. -/
theorem enable_store_reruns_on_request_two :
    (newActions (cm3663_light_enable_store (probed (some ⟨some bus_ok⟩)) 1)
        (cm3663_light_enable_store
          (cm3663_light_enable_store (probed (some ⟨some bus_ok⟩)) 1) 2) =
      [Action.i2c_read 0x18, Action.i2c_read 0x18, Action.i2c_read 0x18,
       Action.i2c_write 0x22 0x20, Action.i2c_write 0x20 0x00,
       Action.hrtimer_start 200000000]) ∧
    (newActions (cm3663_proximity_enable_store (probed (some ⟨some bus_ok⟩)) 1)
        (cm3663_proximity_enable_store
          (cm3663_proximity_enable_store (probed (some ⟨some bus_ok⟩)) 1) 2) =
      [Action.i2c_read 0x18, Action.i2c_read 0x18, Action.i2c_write 0x22 0x20,
       Action.i2c_write 0xB2 0x0A, Action.i2c_write 0xB0 0x30, Action.enable_irq]) ∧
    (newActions (cm3663_light_enable_store (probed (some ⟨some bus_ok⟩)) 1)
        (cm3663_light_enable_store
          (cm3663_light_enable_store (probed (some ⟨some bus_ok⟩)) 1) 1) = []) := by
  decide

/-- C8: for every state in which Proximity is disabled and every request to
enable (a non-zero value), `cm3663_proximity_enable_store` makes, after the
rail power-on that happens only when both flags were clear, exactly the calls
read 0x18, read 0x18, write 0x22 = 0x20, write 0xB2 = 0x0A, write 0xB0 = 0x30,
`enable_irq`, in this order; the call `enable_irq` is the last step, taken
from a state in which `PROXIMITY_ENABLED` is already set, the register writes
are done and the interrupt line is still as it was. -/
theorem proximity_enable_sequence (s : cm3663_data) (enable : Int)
    (hoff : s.power_state &&& PROXIMITY_ENABLED = 0) (hreq : enable ≠ 0) :
    newActions s (cm3663_proximity_enable_store s enable) =
      (if s.power_state = 0 then [Action.proximity_power true] else []) ++
      [Action.i2c_read 0x18, Action.i2c_read 0x18, Action.i2c_write 0x22 0x20,
       Action.i2c_write 0xB2 0x0A, Action.i2c_write 0xB0 0x30, Action.enable_irq] ∧
    (cm3663_proximity_enable_store s enable).irq_enabled = true ∧
    ∃ mid, cm3663_proximity_enable_store s enable = enable_irq mid ∧
      mid.power_state &&& PROXIMITY_ENABLED ≠ 0 ∧
      mid.irq_enabled = s.irq_enabled ∧
      newActions s mid =
        (if s.power_state = 0 then [Action.proximity_power true] else []) ++
        [Action.i2c_read 0x18, Action.i2c_read 0x18, Action.i2c_write 0x22 0x20,
         Action.i2c_write 0xB2 0x0A, Action.i2c_write 0xB0 0x30] := by
  have hx : enable ≠ (((s.power_state &&& PROXIMITY_ENABLED) >>> 1 : Nat) : Int) := by
    rw [hoff]; exact hreq
  obtain ⟨mid, hmid, hps, hirq, htrace⟩ := cm3663_proximity_enable_store_on s enable hx hreq
  have hflag : mid.power_state &&& PROXIMITY_ENABLED ≠ 0 := by
    have h2 : (s.power_state ||| 2) &&& 2 = 2 := by
      apply Nat.eq_of_testBit_eq; intro i
      simp only [Nat.testBit_land, Nat.testBit_lor]
      cases h : Nat.testBit 2 i <;> simp
    rw [hps]
    show (s.power_state ||| 2) &&& 2 ≠ 0
    omega
  refine ⟨?_, ?_, mid, hmid, hflag, hirq, newActions_of_trace s mid _ htrace⟩
  · rw [hmid]
    apply newActions_of_trace
    simp [enable_irq, htrace, REGS_ARA, REGS_INIT, REGS_PS_THD, REGS_PS_CMD]
  · rw [hmid]; rfl

/-- C8, at concrete inputs: from the probed state and the request 1. -/
theorem proximity_enable_sequence_witness :
    newActions (probed (some ⟨some bus_ok⟩))
        (cm3663_proximity_enable_store (probed (some ⟨some bus_ok⟩)) 1) =
      [Action.proximity_power true, Action.i2c_read 0x18, Action.i2c_read 0x18,
       Action.i2c_write 0x22 0x20, Action.i2c_write 0xB2 0x0A, Action.i2c_write 0xB0 0x30,
       Action.enable_irq] ∧
    (cm3663_proximity_enable_store (probed (some ⟨some bus_ok⟩)) 1).irq_enabled = true :=
  ⟨(proximity_enable_sequence (probed (some ⟨some bus_ok⟩)) 1 (by decide) (by decide)).1,
   (proximity_enable_sequence (probed (some ⟨some bus_ok⟩)) 1 (by decide) (by decide)).2.1⟩

/-! ## Changing the poll delay -/

/-- C9: for every state with Light enabled, after a successful parse, a new
poll delay that differs from the current one is stored, `power_state` is left
as it is, no light event is raised, and the calls made are exactly one
Light-disable sequence (write 0x20 = 0x01, cancel the timer, drain the work)
followed by one Light-enable sequence (read 0x18 three times, write
0x22 = 0x20, write 0x20 = 0x00, start the timer with the new delay); with a
new delay equal to the current one the driver is left as it is and no call is
made. -/
theorem poll_delay_store_cycles_light (s : cm3663_data) (err new_delay : Int)
    (hparse : 0 ≤ err) (hlight : s.power_state &&& LIGHT_ENABLED ≠ 0) :
    (new_delay ≠ s.light_poll_delay →
      (cm3663_light_poll_delay_store s err new_delay).light_poll_delay = new_delay ∧
      (cm3663_light_poll_delay_store s err new_delay).power_state = s.power_state ∧
      newActions s (cm3663_light_poll_delay_store s err new_delay) =
        [Action.i2c_write 0x20 0x01, Action.hrtimer_cancel, Action.cancel_work_sync,
         Action.i2c_read 0x18, Action.i2c_read 0x18, Action.i2c_read 0x18,
         Action.i2c_write 0x22 0x20, Action.i2c_write 0x20 0x00,
         Action.hrtimer_start new_delay] ∧
      (newActions s (cm3663_light_poll_delay_store s err new_delay)).filter
        Action.isEvent = []) ∧
    (new_delay = s.light_poll_delay →
      cm3663_light_poll_delay_store s err new_delay = s ∧
      newActions s (cm3663_light_poll_delay_store s err new_delay) = []) := by
  have herr : ¬ err < 0 := by omega
  constructor
  · intro hne
    have hactions : newActions s (cm3663_light_poll_delay_store s err new_delay) =
        [Action.i2c_write 0x20 0x01, Action.hrtimer_cancel, Action.cancel_work_sync,
         Action.i2c_read 0x18, Action.i2c_read 0x18, Action.i2c_read 0x18,
         Action.i2c_write 0x22 0x20, Action.i2c_write 0x20 0x00,
         Action.hrtimer_start new_delay] := by
      apply newActions_of_trace
      unfold cm3663_light_poll_delay_store
      simp only [herr, hne, hlight, if_false, ne_eq, not_false_eq_true, if_true]
      rw [cm3663_light_enable_trace, cm3663_light_disable_trace]
      simp [REGS_ARA, REGS_INIT, REGS_ALS_CMD]
    refine ⟨?_, ?_, hactions, ?_⟩
    · unfold cm3663_light_poll_delay_store
      simp only [herr, hne, hlight, if_false, ne_eq, not_false_eq_true, if_true]
      simp
    · unfold cm3663_light_poll_delay_store
      simp only [herr, hne, hlight, if_false, ne_eq, not_false_eq_true, if_true]
      simp
    · rw [hactions]; rfl
  · intro heq
    have hsame : cm3663_light_poll_delay_store s err new_delay = s := by
      simp [cm3663_light_poll_delay_store, herr, heq]
    rw [hsame]
    exact ⟨rfl, by simp [newActions]⟩

/-- C9, at a concrete input: from 200 ms to 500 ms with Light enabled. -/
theorem poll_delay_store_cycles_light_witness :
    (cm3663_light_poll_delay_store
        (cm3663_light_enable_store (probed (some ⟨some bus_ok⟩)) 1) 0 500000000).light_poll_delay =
      500000000 ∧
    newActions (cm3663_light_enable_store (probed (some ⟨some bus_ok⟩)) 1)
        (cm3663_light_poll_delay_store
          (cm3663_light_enable_store (probed (some ⟨some bus_ok⟩)) 1) 0 500000000) =
      [Action.i2c_write 0x20 0x01, Action.hrtimer_cancel, Action.cancel_work_sync,
       Action.i2c_read 0x18, Action.i2c_read 0x18, Action.i2c_read 0x18,
       Action.i2c_write 0x22 0x20, Action.i2c_write 0x20 0x00,
       Action.hrtimer_start 500000000] :=
  ⟨((poll_delay_store_cycles_light (cm3663_light_enable_store (probed (some ⟨some bus_ok⟩)) 1)
      0 500000000 (by decide) (by decide)).1 (by decide)).1,
   ((poll_delay_store_cycles_light (cm3663_light_enable_store (probed (some ⟨some bus_ok⟩)) 1)
      0 500000000 (by decide) (by decide)).1 (by decide)).2.2.1⟩

/-! ## Reset -/

/-- The calls of `cm3663_reset`, and what it leaves alone. -/
theorem cm3663_reset_calls (s : cm3663_data) :
    (cm3663_reset s).power_state = s.power_state ∧
    (cm3663_reset s).irq_enabled = s.irq_enabled ∧
    newActions s (cm3663_reset s) =
      [Action.hrtimer_cancel, Action.proximity_power false, Action.proximity_power true] ++
      (if s.power_state &&& LIGHT_ENABLED ≠ 0 then
        [Action.i2c_read 0x18, Action.i2c_read 0x18, Action.i2c_read 0x18,
         Action.i2c_write 0x22 0x20, Action.i2c_write 0x20 0x00,
         Action.hrtimer_start s.light_poll_delay]
       else []) ++
      (if s.power_state &&& PROXIMITY_ENABLED ≠ 0 then
        [Action.i2c_read 0x18, Action.i2c_read 0x18, Action.i2c_write 0x22 0x20,
         Action.i2c_write 0xB2 0x0A, Action.i2c_write 0xB0 0x30]
       else []) := by
  refine ⟨?_, ?_, ?_⟩
  · unfold cm3663_reset
    by_cases hl : s.power_state &&& LIGHT_ENABLED ≠ 0 <;>
      by_cases hx : s.power_state &&& PROXIMITY_ENABLED ≠ 0 <;>
      simp [hl, hx, hrtimer_cancel, proximity_power]
  · unfold cm3663_reset
    by_cases hl : s.power_state &&& LIGHT_ENABLED ≠ 0 <;>
      by_cases hx : s.power_state &&& PROXIMITY_ENABLED ≠ 0 <;>
      simp [hl, hx, hrtimer_cancel, proximity_power]
  · apply newActions_of_trace
    unfold cm3663_reset
    by_cases hl : s.power_state &&& LIGHT_ENABLED ≠ 0 <;>
      by_cases hx : s.power_state &&& PROXIMITY_ENABLED ≠ 0 <;>
      simp [hl, hx, hrtimer_cancel, proximity_power, cm3663_light_enable_trace,
        reg_defaults, PROXIMITY_THRESHOLD, REGS_ARA, REGS_INIT, REGS_ALS_CMD, REGS_PS_THD,
        REGS_PS_CMD]

/-- The bus and timer calls of enabling Light through its attribute, from the
state with the Light flag cleared. -/
theorem light_enable_store_bus_timer_calls (s : cm3663_data) :
    (newActions (clear_flag s LIGHT_ENABLED)
        (cm3663_light_enable_store (clear_flag s LIGHT_ENABLED) 1)).filter
        Action.isBusOrTimer =
      [Action.i2c_read 0x18, Action.i2c_read 0x18, Action.i2c_read 0x18,
       Action.i2c_write 0x22 0x20, Action.i2c_write 0x20 0x00,
       Action.hrtimer_start s.light_poll_delay] := by
  have hclear : (clear_flag s LIGHT_ENABLED).power_state &&& LIGHT_ENABLED = 0 := by
    show (s.power_state &&& (0xFF ^^^ 1)) &&& 1 = 0
    rw [Nat.land_assoc]
    have : (0xFF ^^^ 1) &&& 1 = 0 := by decide
    rw [this]; simp
  have hl : (1 : Int) ≠ (((clear_flag s LIGHT_ENABLED).power_state &&& LIGHT_ENABLED : Nat) : Int) := by
    rw [hclear]; decide
  rw [(cm3663_light_enable_store_on (clear_flag s LIGHT_ENABLED) 1 hl (by decide)).1]
  by_cases hp : (clear_flag s LIGHT_ENABLED).power_state = 0
  · rw [if_pos hp]; rfl
  · rw [if_neg hp]; rfl

/-- The bus and timer calls of enabling Proximity through its attribute, from
the state with the Proximity flag cleared. -/
theorem proximity_enable_store_bus_timer_calls (s : cm3663_data) :
    (newActions (clear_flag s PROXIMITY_ENABLED)
        (cm3663_proximity_enable_store (clear_flag s PROXIMITY_ENABLED) 1)).filter
        Action.isBusOrTimer =
      [Action.i2c_read 0x18, Action.i2c_read 0x18, Action.i2c_write 0x22 0x20,
       Action.i2c_write 0xB2 0x0A, Action.i2c_write 0xB0 0x30] := by
  have hclear : (clear_flag s PROXIMITY_ENABLED).power_state &&& PROXIMITY_ENABLED = 0 := by
    show (s.power_state &&& (0xFF ^^^ 2)) &&& 2 = 0
    rw [Nat.land_assoc]
    have : (0xFF ^^^ 2) &&& 2 = 0 := by decide
    rw [this]; simp
  have hx : (1 : Int) ≠
      ((((clear_flag s PROXIMITY_ENABLED).power_state &&& PROXIMITY_ENABLED) >>> 1 : Nat) : Int) := by
    rw [hclear]; decide
  obtain ⟨mid, hmid, _, _, htrace⟩ :=
    cm3663_proximity_enable_store_on (clear_flag s PROXIMITY_ENABLED) 1 hx (by decide)
  rw [hmid]
  by_cases hp : (clear_flag s PROXIMITY_ENABLED).power_state = 0
  · rw [newActions_of_trace (clear_flag s PROXIMITY_ENABLED) (enable_irq mid)
      ([Action.proximity_power true, Action.i2c_read REGS_ARA, Action.i2c_read REGS_ARA,
        Action.i2c_write REGS_INIT 0x20, Action.i2c_write REGS_PS_THD 0x0A,
        Action.i2c_write REGS_PS_CMD 0x30, Action.enable_irq])
      (by simp [enable_irq, htrace, if_pos hp])]
    rfl
  · rw [newActions_of_trace (clear_flag s PROXIMITY_ENABLED) (enable_irq mid)
      ([Action.i2c_read REGS_ARA, Action.i2c_read REGS_ARA,
        Action.i2c_write REGS_INIT 0x20, Action.i2c_write REGS_PS_THD 0x0A,
        Action.i2c_write REGS_PS_CMD 0x30, Action.enable_irq])
      (by simp [enable_irq, htrace, if_neg hp])]
    rfl

/-- C10, counterexample: with Proximity enabled the reset makes the five
register calls of the Proximity enable sequence but not its `enable_irq`, so
its calls differ from the bus, timer and interrupt-line calls of enabling
Proximity through the attribute. -/
theorem reset_omits_enable_irq :
    newActions (cm3663_proximity_enable_store (probed (some ⟨some bus_ok⟩)) 1)
        (cm3663_reset (cm3663_proximity_enable_store (probed (some ⟨some bus_ok⟩)) 1)) =
      [Action.hrtimer_cancel, Action.proximity_power false, Action.proximity_power true,
       Action.i2c_read 0x18, Action.i2c_read 0x18, Action.i2c_write 0x22 0x20,
       Action.i2c_write 0xB2 0x0A, Action.i2c_write 0xB0 0x30] ∧
    (newActions (probed (some ⟨some bus_ok⟩))
        (cm3663_proximity_enable_store (probed (some ⟨some bus_ok⟩)) 1)).filter
        (fun a => a.isBus || a.isTimer || a.isIrq) =
      [Action.i2c_read 0x18, Action.i2c_read 0x18, Action.i2c_write 0x22 0x20,
       Action.i2c_write 0xB2 0x0A, Action.i2c_write 0xB0 0x30, Action.enable_irq] ∧
    newActions (cm3663_proximity_enable_store (probed (some ⟨some bus_ok⟩)) 1)
        (cm3663_reset (cm3663_proximity_enable_store (probed (some ⟨some bus_ok⟩)) 1)) ≠
      [Action.hrtimer_cancel, Action.proximity_power false, Action.proximity_power true] ++
      (newActions (probed (some ⟨some bus_ok⟩))
        (cm3663_proximity_enable_store (probed (some ⟨some bus_ok⟩)) 1)).filter
        (fun a => a.isBus || a.isTimer || a.isIrq) := by
  decide

/-- C10, amended: for every power state, `cm3663_reset` cancels the light
sampler timer, powers the rail off and on again, and then makes, for each
sensor whose flag is set, exactly the bus and timer calls that enabling that
sensor through its attribute makes (Light first, then Proximity) and for a
sensor whose flag is clear none; it makes no interrupt-line call and leaves
the interrupt line and `power_state` as they were. -/
theorem reset_reapplies_bus_and_timer_calls (s : cm3663_data) :
    (cm3663_reset s).power_state = s.power_state ∧
    (cm3663_reset s).irq_enabled = s.irq_enabled ∧
    (newActions s (cm3663_reset s)).filter Action.isIrq = [] ∧
    newActions s (cm3663_reset s) =
      [Action.hrtimer_cancel, Action.proximity_power false, Action.proximity_power true] ++
      (if s.power_state &&& LIGHT_ENABLED ≠ 0 then
        (newActions (clear_flag s LIGHT_ENABLED)
          (cm3663_light_enable_store (clear_flag s LIGHT_ENABLED) 1)).filter
          Action.isBusOrTimer
       else []) ++
      (if s.power_state &&& PROXIMITY_ENABLED ≠ 0 then
        (newActions (clear_flag s PROXIMITY_ENABLED)
          (cm3663_proximity_enable_store (clear_flag s PROXIMITY_ENABLED) 1)).filter
          Action.isBusOrTimer
       else []) := by
  obtain ⟨hps, hirq, hcalls⟩ := cm3663_reset_calls s
  refine ⟨hps, hirq, ?_, ?_⟩
  · rw [hcalls]
    by_cases hl : s.power_state &&& LIGHT_ENABLED ≠ 0
    · by_cases hx : s.power_state &&& PROXIMITY_ENABLED ≠ 0
      · rw [if_pos hl, if_pos hx]; rfl
      · rw [if_pos hl, if_neg hx]; rfl
    · by_cases hx : s.power_state &&& PROXIMITY_ENABLED ≠ 0
      · rw [if_neg hl, if_pos hx]; rfl
      · rw [if_neg hl, if_neg hx]; rfl
  · rw [hcalls, light_enable_store_bus_timer_calls, proximity_enable_store_bus_timer_calls]

/-! ## The raw light value -/

/-- The arithmetic of line 239 on two bytes stays inside a 32-bit `int`. -/
theorem als_bytes_no_overflow (lo hi : Nat) (hlo : lo < 256) (hhi : hi < 256) :
    wrap_int ((((hi <<< 8) ||| lo : Nat) : Int) * 5) = (((hi * 256 + lo) * 5 : Nat) : Int) := by
  have hor : (hi <<< 8) ||| lo = hi * 256 + lo := by
    have h := Nat.mul_add_lt_is_or (show lo < 2 ^ 8 by omega) hi
    rw [Nat.shiftLeft_eq, Nat.mul_comm hi (2 ^ 8), ← h]
  rw [hor]
  unfold wrap_int
  push_cast
  omega

/-- C11: whatever bytes LSB and MSB the two ALS register reads (0x23 first,
then 0x21) leave in the two locals, in particular the bytes two successful
reads return, `lightsensor_get_alsvalue` returns `v = (MSB * 256 + LSB) * 5`
when `v ≥ 8` and 0 when `v < 8`; `v` fits a 32-bit `int`, and the result lies
in 0..327675, is a multiple of 5 and is not in 1..9. -/
theorem als_value_formula (s : cm3663_data) (als_low als_high LSB MSB : Nat)
    (hlsb : (cm3663_i2c_read s REGS_ALS_LSB als_low).val = LSB)
    (hmsb : (cm3663_i2c_read (cm3663_i2c_read s REGS_ALS_LSB als_low).st
      REGS_ALS_MSB als_high).val = MSB)
    (hLSB : LSB < 256) (hMSB : MSB < 256) :
    (lightsensor_get_alsvalue s als_low als_high).value =
        (if (MSB * 256 + LSB) * 5 < 8 then 0 else (((MSB * 256 + LSB) * 5 : Nat) : Int)) ∧
    (MSB * 256 + LSB) * 5 < 2 ^ 31 ∧
    0 ≤ (lightsensor_get_alsvalue s als_low als_high).value ∧
    (lightsensor_get_alsvalue s als_low als_high).value ≤ 327675 ∧
    (5 : Int) ∣ (lightsensor_get_alsvalue s als_low als_high).value ∧
    ¬ (1 ≤ (lightsensor_get_alsvalue s als_low als_high).value ∧
        (lightsensor_get_alsvalue s als_low als_high).value ≤ 9) ∧
    newActions s (lightsensor_get_alsvalue s als_low als_high).st =
      [Action.i2c_read 0x23, Action.i2c_read 0x21] := by
  have hvalue : (lightsensor_get_alsvalue s als_low als_high).value =
      (if (MSB * 256 + LSB) * 5 < 8 then 0 else (((MSB * 256 + LSB) * 5 : Nat) : Int)) := by
    unfold lightsensor_get_alsvalue
    simp only [hlsb, hmsb, Nat.mod_eq_of_lt hLSB, Nat.mod_eq_of_lt hMSB]
    rw [als_bytes_no_overflow LSB MSB hLSB hMSB]
    by_cases h8 : (MSB * 256 + LSB) * 5 < 8
    · have : (((MSB * 256 + LSB) * 5 : Nat) : Int) < 8 := by exact_mod_cast h8
      rw [if_pos this, if_pos h8]
    · have : ¬ (((MSB * 256 + LSB) * 5 : Nat) : Int) < 8 := by
        intro h; apply h8; exact_mod_cast h
      rw [if_neg this, if_neg h8]
  have htrace : newActions s (lightsensor_get_alsvalue s als_low als_high).st =
      [Action.i2c_read 0x23, Action.i2c_read 0x21] := by
    apply newActions_of_trace
    simp [lightsensor_get_alsvalue, REGS_ALS_LSB, REGS_ALS_MSB]
  rw [hvalue]
  refine ⟨rfl, by omega, ?_, ?_, ?_, ?_, htrace⟩
  · split <;> omega
  · split <;> omega
  · split
    · exact dvd_zero _
    · exact ⟨((MSB * 256 + LSB : Nat) : Int), by push_cast; ring⟩
  · split <;> omega

/-- C11, at a concrete input: the bytes 0xB9 and 0x0B give 3001 * 5 = 15005. -/
theorem als_value_formula_witness :
    (lightsensor_get_alsvalue (probed (some ⟨some bus_bright⟩)) 0 0).value = 15005 ∧
    newActions (probed (some ⟨some bus_bright⟩))
        (lightsensor_get_alsvalue (probed (some ⟨some bus_bright⟩)) 0 0).st =
      [Action.i2c_read 0x23, Action.i2c_read 0x21] :=
  ⟨(als_value_formula (probed (some ⟨some bus_bright⟩)) 0 0 0xB9 0x0B
      (by decide) (by decide) (by decide) (by decide)).1,
   (als_value_formula (probed (some ⟨some bus_bright⟩)) 0 0 0xB9 0x0B
      (by decide) (by decide) (by decide) (by decide)).2.2.2.2.2.2⟩

/-! ## The bucket scan -/

/-- The least index whose threshold is not below the value, spelled out. -/
theorem bucket_index_eq (als : Int) :
    bucket_index als =
      if als ≤ 15 then 0 else if als ≤ 150 then 1 else if als ≤ 1500 then 2
      else if als ≤ 15000 then 3 else 4 := by
  unfold bucket_index adc_table
  simp only [List.findIdx_cons, List.findIdx_nil]
  by_cases h0 : als ≤ 15
  · simp [h0]
  · by_cases h1 : als ≤ 150
    · simp [h0, h1]
    · by_cases h2 : als ≤ 1500
      · simp [h0, h1, h2]
      · by_cases h3 : als ≤ 15000 <;> simp [h0, h1, h2, h3]

/-- For a raw value above the last threshold the scan reads `adc_table[4]`,
whatever the iteration budget from 5 on. -/
theorem adc_scan_above_table (als : Int) (h : 15000 < als) (fuel : Nat) :
    adc_scan als (fuel + 5) 0 = ScanExit.out_of_bounds 4 := by
  have h0 : ¬ als ≤ 15 := by omega
  have h1 : ¬ als ≤ 150 := by omega
  have h2 : ¬ als ≤ 1500 := by omega
  have h3 : ¬ als ≤ 15000 := by omega
  simp [adc_scan, ARRAY_SIZE_adc_table, adc_table, h0, h1, h2, h3]

/-- C12, at the failing input: the ALS bytes 0xB9 and 0x0B give the raw value
15005; the scan on it (and on 15001) does not end with index 4 but reads
`adc_table[4]`, outside the table, and the tick has no defined result. -/
theorem adc_scan_reads_past_table :
    (lightsensor_get_alsvalue (probed (some ⟨some bus_bright⟩)) 0 0).value = 15005 ∧
    adc_scan 15005 (ARRAY_SIZE_adc_table + 1) 0 = ScanExit.out_of_bounds 4 ∧
    adc_scan 15001 (ARRAY_SIZE_adc_table + 1) 0 = ScanExit.out_of_bounds 4 ∧
    adc_scan 15001 100 0 = ScanExit.out_of_bounds 4 ∧
    (cm3663_work_func_light (cm3663_light_enable (probed (some ⟨some bus_bright⟩)))
      15005).isNone = true := by
  decide

/-! ## The proximity average -/

/-- Every sample is a byte. -/
theorem prox_samples_le (n : Nat) : ∀ (pv : Nat) (s : cm3663_data),
    ∀ v ∈ prox_samples n pv s, v ≤ 255 := by
  induction n with
  | zero => intro pv s v hv; simp [prox_samples] at hv
  | succ n ih =>
    intro pv s v hv
    simp only [prox_samples, List.mem_cons] at hv
    rcases hv with h | h
    · rw [h]; omega
    · exact ih _ _ v h

theorem prox_samples_length (n : Nat) : ∀ (pv : Nat) (s : cm3663_data),
    (prox_samples n pv s).length = n := by
  induction n with
  | zero => intro pv s; rfl
  | succ n ih => intro pv s; simp [prox_samples, ih]

/-- A sum of values that all lie between two bounds lies between the bounds
times the number of values. -/
theorem sum_between (vals : List Nat) (lo hi : Nat)
    (hlo : ∀ v ∈ vals, lo ≤ v) (hhi : ∀ v ∈ vals, v ≤ hi) :
    lo * vals.length ≤ vals.sum ∧ vals.sum ≤ hi * vals.length := by
  induction vals with
  | nil => simp
  | cons v rest ih =>
    have h1 := hlo v (List.mem_cons_self _ _)
    have h2 := hhi v (List.mem_cons_self _ _)
    obtain ⟨ih1, ih2⟩ := ih (fun w hw => hlo w (List.mem_cons_of_mem _ hw))
      (fun w hw => hhi w (List.mem_cons_of_mem _ hw))
    simp only [List.length_cons, List.sum_cons, Nat.mul_succ]
    omega

/-- The loop of `proxsensor_get_avgvalue` after its first iteration: `avg`
grows by the sum of the samples, `max` and `min` end as the greatest and the
least of their entry value and the samples. -/
theorem prox_read_loop_spec (n : Nat) : ∀ (i : Nat) (l : ProxLocals), i ≠ 0 →
    0 ≤ l.avg → l.avg + 255 * (n : Int) < 2147483648 →
    (prox_read_loop n i l).avg =
        l.avg + ((prox_samples n l.proximity_value l.st).sum : Int) ∧
    (l.max ≤ (prox_read_loop n i l).max ∧
      (∀ v ∈ prox_samples n l.proximity_value l.st, (v : Int) ≤ (prox_read_loop n i l).max) ∧
      ((prox_read_loop n i l).max = l.max ∨
        ∃ v ∈ prox_samples n l.proximity_value l.st, (prox_read_loop n i l).max = (v : Int))) ∧
    ((prox_read_loop n i l).min ≤ l.min ∧
      (∀ v ∈ prox_samples n l.proximity_value l.st, (prox_read_loop n i l).min ≤ (v : Int)) ∧
      ((prox_read_loop n i l).min = l.min ∨
        ∃ v ∈ prox_samples n l.proximity_value l.st, (prox_read_loop n i l).min = (v : Int))) := by
  induction n with
  | zero =>
    intro i l _ _ _
    simp [prox_read_loop, prox_samples]
  | succ n ih =>
    intro i l hi havg hbound
    have hpv : (cm3663_i2c_read l.st REGS_PS_DATA l.proximity_value).val % 256 ≤ 255 := by
      omega
    generalize hv : (cm3663_i2c_read l.st REGS_PS_DATA l.proximity_value).val % 256 = pv at hpv
    have hwrap : wrap_int (l.avg + (pv : Int)) = l.avg + (pv : Int) := by
      unfold wrap_int
      push_cast at hbound
      omega
    have hstep := ih (i + 1)
      ⟨if i = 0 then (pv : Int) else if (pv : Int) < l.min then (pv : Int) else l.min,
       if (pv : Int) > l.max then (pv : Int) else l.max,
       wrap_int (l.avg + (pv : Int)), pv,
       (cm3663_i2c_read l.st REGS_PS_DATA l.proximity_value).st⟩
      (by omega)
      (by show 0 ≤ wrap_int (l.avg + (pv : Int)); rw [hwrap]; omega)
      (by
        show wrap_int (l.avg + (pv : Int)) + 255 * (n : Int) < 2147483648
        rw [hwrap]; push_cast at hbound; omega)
    simp only [prox_read_loop, prox_samples, hv]
    simp only [hi, if_false] at hstep ⊢
    obtain ⟨h1, ⟨h2, h3, h4⟩, ⟨h5, h6, h7⟩⟩ := hstep
    have hmax : l.max ≤ (if (pv : Int) > l.max then (pv : Int) else l.max) ∧
        (pv : Int) ≤ (if (pv : Int) > l.max then (pv : Int) else l.max) := by
      split <;> omega
    have hmin : (if (pv : Int) < l.min then (pv : Int) else l.min) ≤ l.min ∧
        (if (pv : Int) < l.min then (pv : Int) else l.min) ≤ (pv : Int) := by
      split <;> omega
    refine ⟨?_, ⟨?_, ?_, ?_⟩, ⟨?_, ?_, ?_⟩⟩
    · rw [h1, hwrap]; simp only [List.sum_cons]; push_cast; ring
    · exact le_trans hmax.1 h2
    · intro v hv'
      simp only [List.mem_cons] at hv'
      rcases hv' with h | h
      · rw [h]; exact le_trans hmax.2 h2
      · exact h3 v h
    · rcases h4 with h | ⟨v, hv', h⟩
      · by_cases hgt : (pv : Int) > l.max
        · exact Or.inr ⟨pv, List.mem_cons_self _ _, h.trans (if_pos hgt)⟩
        · exact Or.inl (h.trans (if_neg hgt))
      · exact Or.inr ⟨v, List.mem_cons_of_mem _ hv', h⟩
    · exact le_trans h5 hmin.1
    · intro v hv'
      simp only [List.mem_cons] at hv'
      rcases hv' with h | h
      · rw [h]; exact le_trans h5 hmin.2
      · exact h6 v h
    · rcases h7 with h | ⟨v, hv', h⟩
      · by_cases hlt : (pv : Int) < l.min
        · exact Or.inr ⟨pv, List.mem_cons_self _ _, h.trans (if_pos hlt)⟩
        · exact Or.inl (h.trans (if_neg hlt))
      · exact Or.inr ⟨v, List.mem_cons_of_mem _ hv', h⟩

/-- The loop of `proxsensor_get_avgvalue` makes one register read of PS data
per iteration and no other call. -/
theorem prox_read_loop_trace (n : Nat) : ∀ (i : Nat) (l : ProxLocals),
    (prox_read_loop n i l).st.trace =
      l.st.trace ++ List.replicate n (Action.i2c_read REGS_PS_DATA) := by
  induction n with
  | zero => intro i l; simp [prox_read_loop]
  | succ n ih =>
    intro i l
    rw [prox_read_loop, ih]
    simp [List.replicate_succ]

/-- C13: with the 40 values that the 40 reads of the PS data register (0xB1)
leave in `proximity_value`, in particular the bytes that 40 successful reads
return, `proxsensor_get_avgvalue` stores in `avg[0]` their minimum, in
`avg[1]` the floor of their sum divided by 40 and in `avg[2]` their maximum;
hence `avg[0] ≤ avg[1] ≤ avg[2] ≤ 255`. -/
theorem prox_avg_min_mean_max (s : cm3663_data) :
    (prox_samples PROX_READ_NUM 0 s).length = 40 ∧
    ((∃ v ∈ prox_samples PROX_READ_NUM 0 s, (proxsensor_get_avgvalue s).avg0 = (v : Int)) ∧
      ∀ v ∈ prox_samples PROX_READ_NUM 0 s, (proxsensor_get_avgvalue s).avg0 ≤ (v : Int)) ∧
    (proxsensor_get_avgvalue s).avg1 =
      (((prox_samples PROX_READ_NUM 0 s).sum / 40 : Nat) : Int) ∧
    ((∃ v ∈ prox_samples PROX_READ_NUM 0 s, (proxsensor_get_avgvalue s).avg2 = (v : Int)) ∧
      ∀ v ∈ prox_samples PROX_READ_NUM 0 s, (v : Int) ≤ (proxsensor_get_avgvalue s).avg2) ∧
    (proxsensor_get_avgvalue s).avg0 ≤ (proxsensor_get_avgvalue s).avg1 ∧
    (proxsensor_get_avgvalue s).avg1 ≤ (proxsensor_get_avgvalue s).avg2 ∧
    (proxsensor_get_avgvalue s).avg2 ≤ 255 ∧
    newActions s (proxsensor_get_avgvalue s) = List.replicate 40 (Action.i2c_read 0xB1) := by
  have hlen : (prox_samples PROX_READ_NUM 0 s).length = 40 := prox_samples_length _ _ _
  have hbyte := prox_samples_le PROX_READ_NUM 0 s
  -- the first iteration, spelled out
  generalize hpv : (cm3663_i2c_read s REGS_PS_DATA 0).val % 256 = pv
  have hvals : prox_samples PROX_READ_NUM 0 s =
      pv :: prox_samples 39 pv (cm3663_i2c_read s REGS_PS_DATA 0).st := by
    rw [← hpv]; rfl
  have hloop : prox_read_loop PROX_READ_NUM 0 ⟨0, 0, 0, 0, s⟩ =
      prox_read_loop 39 1
        ⟨(pv : Int), if (pv : Int) > 0 then (pv : Int) else 0, wrap_int (0 + (pv : Int)), pv,
         (cm3663_i2c_read s REGS_PS_DATA 0).st⟩ := by
    rw [← hpv]; rfl
  have hpv255 : pv ≤ 255 := by rw [← hpv]; omega
  have hwrap : wrap_int (0 + (pv : Int)) = (pv : Int) := by unfold wrap_int; omega
  have hmax0 : (if (pv : Int) > 0 then (pv : Int) else 0) = (pv : Int) := by split <;> omega
  rw [hwrap, hmax0] at hloop
  obtain ⟨havg, ⟨hM1, hM2, hM3⟩, ⟨hm1, hm2, hm3⟩⟩ := prox_read_loop_spec 39 1
    ⟨(pv : Int), (pv : Int), (pv : Int), pv, (cm3663_i2c_read s REGS_PS_DATA 0).st⟩
    (by decide) (by show (0 : Int) ≤ (pv : Int); omega)
    (by show (pv : Int) + 255 * ((39 : Nat) : Int) < 2147483648; omega)
  rw [← hloop] at havg hM1 hM2 hM3 hm1 hm2 hm3
  dsimp only at havg hM1 hM2 hM3 hm1 hm2 hm3
  have e0 : (proxsensor_get_avgvalue s).avg0 =
      (prox_read_loop PROX_READ_NUM 0 ⟨0, 0, 0, 0, s⟩).min := by
    simp only [proxsensor_get_avgvalue]
  have e1 : (proxsensor_get_avgvalue s).avg1 =
      Int.tdiv (prox_read_loop PROX_READ_NUM 0 ⟨0, 0, 0, 0, s⟩).avg (PROX_READ_NUM : Int) := by
    simp only [proxsensor_get_avgvalue]
  have e2 : (proxsensor_get_avgvalue s).avg2 =
      (prox_read_loop PROX_READ_NUM 0 ⟨0, 0, 0, 0, s⟩).max := by
    simp only [proxsensor_get_avgvalue]
  -- minimum and maximum of all 40 values
  have hminmem : ∃ v ∈ prox_samples PROX_READ_NUM 0 s,
      (prox_read_loop PROX_READ_NUM 0 ⟨0, 0, 0, 0, s⟩).min = (v : Int) := by
    rw [hvals]
    rcases hm3 with h | ⟨v, hv, h⟩
    · exact ⟨pv, List.mem_cons_self _ _, h⟩
    · exact ⟨v, List.mem_cons_of_mem _ hv, h⟩
  have hminle : ∀ v ∈ prox_samples PROX_READ_NUM 0 s,
      (prox_read_loop PROX_READ_NUM 0 ⟨0, 0, 0, 0, s⟩).min ≤ (v : Int) := by
    rw [hvals]
    intro v hv
    simp only [List.mem_cons] at hv
    rcases hv with h | h
    · rw [h]; exact hm1
    · exact hm2 v h
  have hmaxmem : ∃ v ∈ prox_samples PROX_READ_NUM 0 s,
      (prox_read_loop PROX_READ_NUM 0 ⟨0, 0, 0, 0, s⟩).max = (v : Int) := by
    rw [hvals]
    rcases hM3 with h | ⟨v, hv, h⟩
    · exact ⟨pv, List.mem_cons_self _ _, h⟩
    · exact ⟨v, List.mem_cons_of_mem _ hv, h⟩
  have hmaxle : ∀ v ∈ prox_samples PROX_READ_NUM 0 s,
      (v : Int) ≤ (prox_read_loop PROX_READ_NUM 0 ⟨0, 0, 0, 0, s⟩).max := by
    rw [hvals]
    intro v hv
    simp only [List.mem_cons] at hv
    rcases hv with h | h
    · rw [h]; exact hM1
    · exact hM2 v h
  have hsum : (prox_read_loop PROX_READ_NUM 0 ⟨0, 0, 0, 0, s⟩).avg =
      ((prox_samples PROX_READ_NUM 0 s).sum : Int) := by
    rw [havg, hvals]; simp only [List.sum_cons]; push_cast; ring
  have hmean : (proxsensor_get_avgvalue s).avg1 =
      (((prox_samples PROX_READ_NUM 0 s).sum / 40 : Nat) : Int) := by
    rw [e1, hsum, Int.tdiv_eq_ediv (Int.ofNat_nonneg _) (Int.ofNat_nonneg _)]
    simp [PROX_READ_NUM]
  obtain ⟨m, hmmem, hm⟩ := hminmem
  obtain ⟨M, hMmem, hM⟩ := hmaxmem
  have hbounds := sum_between (prox_samples PROX_READ_NUM 0 s) m M
    (fun v hv => by have := hminle v hv; rw [hm] at this; exact_mod_cast this)
    (fun v hv => by have := hmaxle v hv; rw [hM] at this; exact_mod_cast this)
  rw [hlen] at hbounds
  have hM255 := hbyte M hMmem
  refine ⟨hlen, ⟨⟨m, hmmem, e0.trans hm⟩, fun v hv => e0 ▸ hminle v hv⟩, hmean,
    ⟨⟨M, hMmem, e2.trans hM⟩, fun v hv => e2 ▸ hmaxle v hv⟩, ?_, ?_, ?_, ?_⟩
  · rw [e0, hm, hmean]
    have : m ≤ (prox_samples PROX_READ_NUM 0 s).sum / 40 := by omega
    exact_mod_cast this
  · rw [e2, hM, hmean]
    have : (prox_samples PROX_READ_NUM 0 s).sum / 40 ≤ M := by omega
    exact_mod_cast this
  · rw [e2, hM]; exact_mod_cast hM255
  · apply newActions_of_trace
    simp only [proxsensor_get_avgvalue]
    rw [prox_read_loop_trace]
    rfl

/-- A register read whose first transfer succeeds leaves the byte of that
transfer in the buffer. -/
theorem cm3663_i2c_read_first_ok (s : cm3663_data) (client : i2c_client) (a : i2c_adapter)
    (addr val : Nat) (hclient : s.i2c_client = some client)
    (hadapter : client.adapter = some a) (hok : 0 ≤ (a.outcome s.xfers).ret) :
    (cm3663_i2c_read s addr val).val = (a.outcome s.xfers).byte ∧
    (cm3663_i2c_read s addr val).st.xfers = s.xfers + 1 := by
  have hge : (a.outcome s.xfers).ret ≥ 0 := hok
  unfold cm3663_i2c_read
  simp only [hclient, hadapter]
  simp [i2c_retry_loop, hge]

/-- When every read succeeds at its first transfer, the samples are the bytes
the adapter delivers, in order. -/
theorem prox_samples_of_success (a : i2c_adapter) (n : Nat) :
    ∀ (pv : Nat) (s : cm3663_data) (client : i2c_client), s.i2c_client = some client →
      client.adapter = some a → (∀ k, k < n → 0 ≤ (a.outcome (s.xfers + k)).ret) →
      prox_samples n pv s =
        (List.range' s.xfers n).map (fun k => (a.outcome k).byte % 256) := by
  induction n with
  | zero => intro pv s client _ _ _; rfl
  | succ n ih =>
    intro pv s client hclient hadapter hok
    obtain ⟨hval, hx⟩ := cm3663_i2c_read_first_ok s client a REGS_PS_DATA pv hclient hadapter
      (by simpa using hok 0 (Nat.succ_pos n))
    rw [prox_samples]
    rw [ih _ _ client (by rw [cm3663_i2c_read_i2c_client]; exact hclient) hadapter
      (fun k hk => by
        rw [hx, show s.xfers + 1 + k = s.xfers + (k + 1) by omega]
        exact hok (k + 1) (by omega))]
    rw [hval, hx]
    rfl

set_option maxRecDepth 100000 in
/-- The stored triple for a concrete bus, whose 40 bytes are 3, 10, 17, ...,
255, 6, 13, 20: minimum 3, mean 120, maximum 255. -/
theorem prox_avg_on_ramp :
    (proxsensor_get_avgvalue (probed (some ⟨some bus_ramp⟩))).avg0 = 3 ∧
    (proxsensor_get_avgvalue (probed (some ⟨some bus_ramp⟩))).avg1 = 120 ∧
    (proxsensor_get_avgvalue (probed (some ⟨some bus_ramp⟩))).avg2 = 255 ∧
    (prox_samples PROX_READ_NUM 0 (probed (some ⟨some bus_ramp⟩))).sum = 4812 := by
  decide

/-! ## The interrupt line follows the Proximity flag -/

/-- Setting or clearing the Light flag leaves the Proximity flag as it is. -/
theorem light_flag_keeps_proximity_flag (p : Nat) :
    (p ||| LIGHT_ENABLED) &&& PROXIMITY_ENABLED = p &&& PROXIMITY_ENABLED ∧
    (p &&& (0xFF ^^^ LIGHT_ENABLED)) &&& PROXIMITY_ENABLED = p &&& PROXIMITY_ENABLED := by
  constructor
  · show (p ||| 1) &&& 2 = p &&& 2
    apply Nat.eq_of_testBit_eq; intro i
    simp only [Nat.testBit_land, Nat.testBit_lor]
    cases h : Nat.testBit 2 i
    · simp
    · have h1 : Nat.testBit 1 i = false := by
        rcases i with _ | _ | i
        · simp at h
        · rfl
        · simp [Nat.testBit_succ] at h
      simp [h1]
  · show (p &&& (0xFF ^^^ 1)) &&& 2 = p &&& 2
    rw [Nat.land_assoc]
    have : (0xFF ^^^ 1) &&& 2 = 2 := by decide
    rw [this]

/-- Setting the Proximity flag sets it, clearing it clears it. -/
theorem proximity_flag_set_clear (p : Nat) :
    (p ||| PROXIMITY_ENABLED) &&& PROXIMITY_ENABLED ≠ 0 ∧
    (p &&& (0xFF ^^^ PROXIMITY_ENABLED)) &&& PROXIMITY_ENABLED = 0 := by
  constructor
  · have h2 : (p ||| 2) &&& 2 = 2 := by
      apply Nat.eq_of_testBit_eq; intro i
      simp only [Nat.testBit_land, Nat.testBit_lor]
      cases h : Nat.testBit 2 i <;> simp
    show (p ||| 2) &&& 2 ≠ 0
    omega
  · show (p &&& (0xFF ^^^ 2)) &&& 2 = 0
    rw [Nat.land_assoc]
    have : (0xFF ^^^ 2) &&& 2 = 0 := by decide
    rw [this]; simp

/-- The light attribute leaves the interrupt line and the Proximity flag as
they are. -/
theorem cm3663_light_enable_store_keeps_irq (s : cm3663_data) (enable : Int) :
    (cm3663_light_enable_store s enable).irq_enabled = s.irq_enabled ∧
    (cm3663_light_enable_store s enable).power_state &&& PROXIMITY_ENABLED =
      s.power_state &&& PROXIMITY_ENABLED := by
  by_cases h : enable = ((s.power_state &&& LIGHT_ENABLED : Nat) : Int)
  · rw [cm3663_light_enable_store_same s enable h]
    exact ⟨rfl, rfl⟩
  · unfold cm3663_light_enable_store
    by_cases h0 : enable ≠ 0
    · simp only [h, h0, if_false, ne_eq, not_false_eq_true, if_true]
      by_cases hp : s.power_state = 0
      · simp [hp, proximity_power]
        decide
      · simp [hp, (light_flag_keeps_proximity_flag _).1]
    · simp only [h, h0, if_false]
      simp [(light_flag_keeps_proximity_flag _).2]

/-- The proximity attribute keeps the interrupt line in step with the
Proximity flag. -/
theorem cm3663_proximity_enable_store_irq (s : cm3663_data) (enable : Int)
    (hinv : irq_follows_flag s) :
    irq_follows_flag (cm3663_proximity_enable_store s enable) := by
  by_cases h : enable = (((s.power_state &&& PROXIMITY_ENABLED) >>> 1 : Nat) : Int)
  · rw [cm3663_proximity_enable_store_same s enable h]
    exact hinv
  · by_cases h0 : enable ≠ 0
    · obtain ⟨mid, hmid, hps, _, _⟩ := cm3663_proximity_enable_store_on s enable h h0
      rw [hmid]
      unfold irq_follows_flag
      have hflag : (enable_irq mid).power_state &&& PROXIMITY_ENABLED ≠ 0 := by
        show mid.power_state &&& PROXIMITY_ENABLED ≠ 0
        rw [hps]
        exact (proximity_flag_set_clear _).1
      exact ⟨fun _ => hflag, fun _ => rfl⟩
    · unfold irq_follows_flag cm3663_proximity_enable_store
      simp only [h, h0, if_false]
      simp [disable_irq, (proximity_flag_set_clear _).2]

/-- Changing the poll delay leaves the interrupt line and `power_state` as
they are. -/
theorem cm3663_light_poll_delay_store_keeps_irq (s : cm3663_data) (err new_delay : Int) :
    (cm3663_light_poll_delay_store s err new_delay).irq_enabled = s.irq_enabled ∧
    (cm3663_light_poll_delay_store s err new_delay).power_state = s.power_state := by
  unfold cm3663_light_poll_delay_store
  by_cases herr : err < 0
  · simp [herr]
  · by_cases hne : new_delay ≠ s.light_poll_delay
    · by_cases hl : s.power_state &&& LIGHT_ENABLED ≠ 0
      · simp only [herr, hne, hl, if_false, ne_eq, not_false_eq_true, if_true]
        simp
      · simp [herr, hne, hl]
    · simp [herr, hne]

/-- Every call keeps the interrupt line in step with the Proximity flag. -/
theorem call_keeps_irq_in_step (s : cm3663_data) (c : Call) (hinv : irq_follows_flag s) :
    irq_follows_flag (c.run s) := by
  cases c with
  | light_enable_store enable =>
    obtain ⟨h1, h2⟩ := cm3663_light_enable_store_keeps_irq s enable
    unfold irq_follows_flag at hinv ⊢
    show (cm3663_light_enable_store s enable).irq_enabled = true ↔
      (cm3663_light_enable_store s enable).power_state &&& PROXIMITY_ENABLED ≠ 0
    rw [h1, h2]
    exact hinv
  | proximity_enable_store enable => exact cm3663_proximity_enable_store_irq s enable hinv
  | light_poll_delay_store err new_delay =>
    obtain ⟨h1, h2⟩ := cm3663_light_poll_delay_store_keeps_irq s err new_delay
    unfold irq_follows_flag at hinv ⊢
    show (cm3663_light_poll_delay_store s err new_delay).irq_enabled = true ↔
      (cm3663_light_poll_delay_store s err new_delay).power_state &&& PROXIMITY_ENABLED ≠ 0
    rw [h1, h2]
    exact hinv
  | reset =>
    obtain ⟨h1, h2, _⟩ := cm3663_reset_calls s
    unfold irq_follows_flag at hinv ⊢
    show (cm3663_reset s).irq_enabled = true ↔
      (cm3663_reset s).power_state &&& PROXIMITY_ENABLED ≠ 0
    rw [h1, h2]
    exact hinv

/-- Every sequence of calls keeps the interrupt line in step with the
Proximity flag. -/
theorem run_calls_keeps_irq_in_step (calls : List Call) :
    ∀ s : cm3663_data, irq_follows_flag s → irq_follows_flag (run_calls s calls) := by
  induction calls with
  | nil => intro s h; exact h
  | cons c rest ih => intro s h; exact ih (c.run s) (call_keeps_irq_in_step s c h)

/-- C14: in every state reached from an initial state with the interrupt line
disabled and both flags clear by any sequence of calls of
`cm3663_light_enable_store`, `cm3663_proximity_enable_store`,
`cm3663_light_poll_delay_store` and `cm3663_reset` with arbitrary arguments,
the interrupt line is enabled if and only if `PROXIMITY_ENABLED` is set in
`power_state`. -/
theorem irq_enabled_iff_proximity_enabled (s : cm3663_data) (calls : List Call)
    (hirq : s.irq_enabled = false) (hflags : s.power_state = 0) :
    (run_calls s calls).irq_enabled = true ↔
      (run_calls s calls).power_state &&& PROXIMITY_ENABLED ≠ 0 := by
  apply run_calls_keeps_irq_in_step calls s
  unfold irq_follows_flag
  rw [hirq, hflags]
  decide

/-- C14, at a concrete input: a sequence of calls that includes request values
other than 0 and 1, a failed parse and a reset. -/
theorem irq_enabled_iff_proximity_enabled_witness :
    ((run_calls (probed (some ⟨some bus_ok⟩))
        [Call.proximity_enable_store 1, Call.light_enable_store 7, Call.reset,
         Call.light_poll_delay_store 0 500000000, Call.proximity_enable_store 2,
         Call.light_poll_delay_store (-22) 1, Call.light_enable_store 0]).irq_enabled = true ↔
      (run_calls (probed (some ⟨some bus_ok⟩))
        [Call.proximity_enable_store 1, Call.light_enable_store 7, Call.reset,
         Call.light_poll_delay_store 0 500000000, Call.proximity_enable_store 2,
         Call.light_poll_delay_store (-22) 1, Call.light_enable_store 0]).power_state &&&
        PROXIMITY_ENABLED ≠ 0) ∧
    (run_calls (probed (some ⟨some bus_ok⟩))
        [Call.proximity_enable_store 1, Call.light_enable_store 7, Call.reset,
         Call.light_poll_delay_store 0 500000000, Call.proximity_enable_store 2,
         Call.light_poll_delay_store (-22) 1, Call.light_enable_store 0]).irq_enabled = true :=
  ⟨irq_enabled_iff_proximity_enabled (probed (some ⟨some bus_ok⟩))
      [Call.proximity_enable_store 1, Call.light_enable_store 7, Call.reset,
       Call.light_poll_delay_store 0 500000000, Call.proximity_enable_store 2,
       Call.light_poll_delay_store (-22) 1, Call.light_enable_store 0] rfl rfl,
   by decide⟩

/-! ## Suspend and resume -/

/-- C15, counterexample: with Proximity disabled and the rail off before the
suspend, suspend followed by resume leaves the rail on: the resume turns the
rail on although it was not on before the suspend. -/
theorem resume_powers_rail_that_was_off :
    (probed (some ⟨some bus_ok⟩)).rail_on = false ∧
    (probed (some ⟨some bus_ok⟩)).power_state &&& PROXIMITY_ENABLED = 0 ∧
    newActions (probed (some ⟨some bus_ok⟩))
        (cm3663_resume 0 (cm3663_suspend 0 (probed (some ⟨some bus_ok⟩)))) =
      [Action.proximity_power false, Action.proximity_power true] ∧
    (cm3663_resume 0 (cm3663_suspend 0 (probed (some ⟨some bus_ok⟩)))).rail_on = true ∧
    (cm3663_resume 0 (cm3663_suspend 0 (probed (some ⟨some bus_ok⟩)))).rail_on ≠
      (probed (some ⟨some bus_ok⟩)).rail_on := by
  decide

/-- C15, amended: for every power state, every rail state and every content of
`n_drv_is`, `cm3663_suspend` issues the rail power-off call exactly when
`n_drv_is` is 0 and Proximity is disabled, and makes no other call;
`cm3663_resume` issues the rail power-on call under exactly the same
condition, whatever the rail was before the suspend; neither changes
`power_state`.  So suspend followed by resume leaves `power_state` unchanged
and leaves the rail on when `n_drv_is` is 0 and Proximity is disabled, and as
it was before the suspend otherwise. -/
theorem suspend_resume_rail (n_drv_is : Int) (s : cm3663_data) :
    (cm3663_suspend n_drv_is s).power_state = s.power_state ∧
    newActions s (cm3663_suspend n_drv_is s) =
      (if n_drv_is = 0 ∧ s.power_state &&& PROXIMITY_ENABLED = 0
        then [Action.proximity_power false] else []) ∧
    (cm3663_resume n_drv_is s).power_state = s.power_state ∧
    (newActions s (cm3663_resume n_drv_is s)).filter Action.isRail =
      (if n_drv_is = 0 ∧ s.power_state &&& PROXIMITY_ENABLED = 0
        then [Action.proximity_power true] else []) ∧
    (cm3663_resume n_drv_is (cm3663_suspend n_drv_is s)).power_state = s.power_state ∧
    (cm3663_resume n_drv_is (cm3663_suspend n_drv_is s)).rail_on =
      (if n_drv_is = 0 ∧ s.power_state &&& PROXIMITY_ENABLED = 0 then true else s.rail_on) := by
  by_cases hn : n_drv_is = 0
  · by_cases hp : s.power_state &&& PROXIMITY_ENABLED = 0
    · simp [cm3663_suspend, cm3663_resume, hn, hp, proximity_power, newActions, Action.isRail]
    · simp [cm3663_suspend, cm3663_resume, hn, hp, wake_lock_timeout, newActions,
        Action.isRail]
  · simp [cm3663_suspend, cm3663_resume, hn, newActions]

/-! ## The bucket scan inside the table -/

/-- C16: for every raw value up to 15000 (negative values included) the scan
ends through `break` with an index `i` in 0..3 such that the raw value does
not exceed `adc_table[i]` and exceeds every threshold before it, that is the
least such index; the index does not decrease when the raw value grows; each
boundary is inclusive: 15 gives 0 and 16 gives 1, 150 gives 1 and 151 gives 2,
1500 gives 2 and 1501 gives 3, 15000 gives 3. -/
theorem adc_scan_least_index (raw raw2 : Int) (hle : raw ≤ raw2) (htop : raw2 ≤ 15000) :
    (∃ i j threshold, adc_scan raw (ARRAY_SIZE_adc_table + 1) 0 = ScanExit.found i ∧
      adc_scan raw2 (ARRAY_SIZE_adc_table + 1) 0 = ScanExit.found j ∧
      i ≤ 3 ∧ adc_table[i]? = some threshold ∧ raw ≤ threshold ∧
      (∀ k below, k < i → adc_table[k]? = some below → below < raw) ∧
      i ≤ j) ∧
    (adc_scan 15 (ARRAY_SIZE_adc_table + 1) 0 = ScanExit.found 0 ∧
      adc_scan 16 (ARRAY_SIZE_adc_table + 1) 0 = ScanExit.found 1 ∧
      adc_scan 150 (ARRAY_SIZE_adc_table + 1) 0 = ScanExit.found 1 ∧
      adc_scan 151 (ARRAY_SIZE_adc_table + 1) 0 = ScanExit.found 2 ∧
      adc_scan 1500 (ARRAY_SIZE_adc_table + 1) 0 = ScanExit.found 2 ∧
      adc_scan 1501 (ARRAY_SIZE_adc_table + 1) 0 = ScanExit.found 3 ∧
      adc_scan 15000 (ARRAY_SIZE_adc_table + 1) 0 = ScanExit.found 3) := by
  refine ⟨?_, by decide⟩
  have hraw : raw ≤ 15000 := le_trans hle htop
  refine ⟨bucket_index raw, bucket_index raw2, adc_table.getD (bucket_index raw) 0,
    adc_scan_in_table raw hraw, adc_scan_in_table raw2 htop, ?_, ?_, ?_, ?_, ?_⟩
  · rw [bucket_index_eq]; split_ifs <;> omega
  · rw [bucket_index_eq]; split_ifs <;> rfl
  · rw [bucket_index_eq]; split_ifs <;> simp [adc_table] <;> omega
  · intro k below hk hbelow
    rw [bucket_index_eq] at hk
    split_ifs at hk
    · omega
    · have : k = 0 := by omega
      subst this
      simp [adc_table] at hbelow
      omega
    · have : k = 0 ∨ k = 1 := by omega
      rcases this with h | h <;> subst h <;> simp [adc_table] at hbelow <;> omega
    · have : k = 0 ∨ k = 1 ∨ k = 2 := by omega
      rcases this with h | h | h <;> subst h <;> simp [adc_table] at hbelow <;> omega
  · rw [bucket_index_eq, bucket_index_eq]; split_ifs <;> omega

/-- C16, at concrete inputs: the raw values 16 and 1500. -/
theorem adc_scan_least_index_witness :
    ∃ i j threshold, adc_scan 16 (ARRAY_SIZE_adc_table + 1) 0 = ScanExit.found i ∧
      adc_scan 1500 (ARRAY_SIZE_adc_table + 1) 0 = ScanExit.found j ∧
      i ≤ 3 ∧ adc_table[i]? = some threshold ∧ (16 : Int) ≤ threshold ∧
      (∀ k below, k < i → adc_table[k]? = some below → below < (16 : Int)) ∧
      i ≤ j :=
  (adc_scan_least_index 16 1500 (by decide) (by decide)).1

/-! ## The light sampler inside one bucket -/

/-- A raw value with a bucket inside the table does not exceed the last
threshold. -/
theorem le_top_of_bucket_index (als : Int) (h : bucket_index als ≤ 3) : als ≤ 15000 := by
  rw [bucket_index_eq] at h
  split_ifs at h <;> omega

/-- The expected ticks of a sequence that stays in the stored bucket. -/
theorem expected_ticks_in_bucket (b : Nat) (raws : List Int) :
    ∀ run : Nat, (∀ r ∈ raws, bucket_index r = b) →
      List.zipWith expected_tick (stable_runs b run raws) raws =
        (raws.enumFrom run).map (fun p =>
          (⟨false, if (p.1 + 1) % 6 = 0 then [Action.input_report_abs (p.2 + 1)] else []⟩ :
            TickObs)) := by
  induction raws with
  | nil => intro run _; rfl
  | cons r rest ih =>
    intro run hall
    have hr : bucket_index r = b := hall r (List.mem_cons_self _ _)
    have hrest : ∀ x ∈ rest, bucket_index x = b := fun x hx => hall x (List.mem_cons_of_mem _ hx)
    simp only [stable_runs, hr, if_true, List.zipWith_cons_cons, List.enumFrom_cons,
      List.map_cons, ih (run + 1) hrest]
    simp [expected_tick]

/-- A step of the state sequence of the sampler. -/
theorem light_states_cons_some (s t : cm3663_data) (als : Int) (rest : List Int)
    (sts : List cm3663_data) (h1 : cm3663_work_func_light s als = some t)
    (h2 : light_states t rest = some sts) :
    light_states s (als :: rest) = some (t :: sts) := by
  simp [light_states, h1, h2]

/-- Inside one bucket `light_count` runs through 1, 2, 3, 4, 5, 0 again and
again. -/
theorem light_states_in_bucket (b : Nat) (raws : List Int) :
    ∀ (s : cm3663_data) (run : Nat), s.light_buffer = (b : Int) →
      s.light_count = ((run % 6 : Nat) : Int) → b ≤ 3 → (∀ r ∈ raws, bucket_index r = b) →
      ∃ sts, light_states s raws = some sts ∧
        sts.map (fun t => t.light_count) =
          (raws.enumFrom run).map (fun p => (((p.1 + 1) % 6 : Nat) : Int)) ∧
        ∀ t ∈ sts, 0 ≤ t.light_count ∧ t.light_count ≤ 5 := by
  induction raws with
  | nil => intro s run _ _ _ _; exact ⟨[], rfl, rfl, by simp⟩
  | cons als rest ih =>
    intro s run hb hc hb3 hall
    have hr : bucket_index als = b := hall als (List.mem_cons_self _ _)
    have hrest : ∀ x ∈ rest, bucket_index x = b := fun x hx => hall x (List.mem_cons_of_mem _ hx)
    have hals : als ≤ 15000 := le_top_of_bucket_index als (by omega)
    have hstep := cm3663_work_func_light_in_table s als hals
    have hbuf : s.light_buffer = (bucket_index als : Int) := by rw [hb, hr]
    rw [if_pos hbuf] at hstep
    by_cases h5 : s.light_count = LIGHT_BUFFER_NUM
    · have hrun : run % 6 = 5 := by
        rw [hc] at h5; simp only [LIGHT_BUFFER_NUM] at h5; omega
      have hnext : (run + 1) % 6 = 0 := by omega
      rw [if_pos h5] at hstep
      obtain ⟨sts, hsts, hcounts, hrange⟩ := ih
        { input_report_abs { s with light_count := s.light_count + 1 } (als + 1) with
          light_count := 0 } (run + 1) hb (by simp [hnext]) hb3 hrest
      refine ⟨_, light_states_cons_some s _ als rest sts hstep hsts, ?_, ?_⟩
      · simp only [List.map_cons, List.enumFrom_cons, hcounts, hnext]
        rfl
      · intro t ht
        simp only [List.mem_cons] at ht
        rcases ht with h | h
        · rw [h]
          show (0 : Int) ≤ 0 ∧ (0 : Int) ≤ 5
          decide
        · exact hrange t h
    · have hrun : run % 6 ≠ 5 := by
        intro h; apply h5; rw [hc, h]; rfl
      have hnext : (run + 1) % 6 = run % 6 + 1 := by omega
      rw [if_neg h5] at hstep
      obtain ⟨sts, hsts, hcounts, hrange⟩ := ih { s with light_count := s.light_count + 1 }
        (run + 1) hb (by rw [hnext]; simp [hc]) hb3 hrest
      refine ⟨_, light_states_cons_some s _ als rest sts hstep hsts, ?_, ?_⟩
      · simp only [List.map_cons, List.enumFrom_cons, hcounts, hnext, hc]
        push_cast
        rfl
      · intro t ht
        simp only [List.mem_cons] at ht
        rcases ht with h | h
        · rw [h]
          show 0 ≤ s.light_count + 1 ∧ s.light_count + 1 ≤ 5
          rw [hc]
          omega
        · exact hrange t h

/-- C17: from any state with `light_count = 0` and `light_buffer = b`, `b` in
0..3, for every sequence of raw samples that all fall in bucket `b`, the
sampler runs through, the tick with 1-based number `k` raises an event if and
only if `k` is a multiple of 6, the event carries that tick's raw + 1, no tick
rewrites `light_buffer`, and after every tick `light_count` lies in 0..5 (it
is `k % 6`). -/
theorem light_event_every_sixth_tick_in_bucket (s : cm3663_data) (b : Nat)
    (raws : List Int) (hb : b ≤ 3) (hcount : s.light_count = 0)
    (hbuf : s.light_buffer = (b : Int)) (hraws : ∀ r ∈ raws, bucket_index r = b) :
    light_run s raws =
      some (raws.enum.map (fun p =>
        (⟨false, if (p.1 + 1) % 6 = 0 then [Action.input_report_abs (p.2 + 1)] else []⟩ :
          TickObs))) ∧
    ∃ sts, light_states s raws = some sts ∧
      sts.map (fun t => t.light_count) =
        raws.enum.map (fun p => (((p.1 + 1) % 6 : Nat) : Int)) ∧
      ∀ t ∈ sts, 0 ≤ t.light_count ∧ t.light_count ≤ 5 := by
  constructor
  · rw [light_run_eq raws s b 0 hbuf (by simp [hcount])
      (fun r hr => le_top_of_bucket_index r (by rw [hraws r hr]; exact hb))]
    rw [expected_ticks_in_bucket b raws 0 hraws]
    rfl
  · exact light_states_in_bucket b raws s 0 hbuf (by simp [hcount]) hb hraws

/-- C17, at a concrete input: thirteen samples in bucket 2 from a state with
`light_buffer = 2`; events come at the ticks 6 and 12. -/
theorem light_event_every_sixth_tick_in_bucket_witness :
    light_run { probed (some ⟨some bus_ok⟩) with light_buffer := 2 }
        [200, 300, 400, 500, 600, 700, 800, 900, 1000, 1100, 1200, 1300, 1500] =
      some [⟨false, []⟩, ⟨false, []⟩, ⟨false, []⟩, ⟨false, []⟩, ⟨false, []⟩,
            ⟨false, [Action.input_report_abs 701]⟩,
            ⟨false, []⟩, ⟨false, []⟩, ⟨false, []⟩, ⟨false, []⟩, ⟨false, []⟩,
            ⟨false, [Action.input_report_abs 1301]⟩, ⟨false, []⟩] :=
  (light_event_every_sixth_tick_in_bucket
    { probed (some ⟨some bus_ok⟩) with light_buffer := 2 } 2
    [200, 300, 400, 500, 600, 700, 800, 900, 1000, 1100, 1200, 1300, 1500]
    (by decide) rfl rfl (by decide)).1.trans (by decide)

/-! ## The bus client never changes -/

theorem cm3663_light_enable_i2c_client (s : cm3663_data) :
    (cm3663_light_enable s).i2c_client = s.i2c_client := by
  simp [cm3663_light_enable, hrtimer_start]

theorem cm3663_light_disable_i2c_client (s : cm3663_data) :
    (cm3663_light_disable s).i2c_client = s.i2c_client := by
  simp [cm3663_light_disable, hrtimer_cancel, cancel_work_sync]

/-- No call changes the field `i2c_client`, which the probe sets once (line
909). -/
theorem call_keeps_client (s : cm3663_data) (c : Call) :
    (c.run s).i2c_client = s.i2c_client := by
  cases c with
  | light_enable_store enable =>
    show (cm3663_light_enable_store s enable).i2c_client = s.i2c_client
    unfold cm3663_light_enable_store
    by_cases h : enable = ((s.power_state &&& LIGHT_ENABLED : Nat) : Int)
    · simp [h]
    · by_cases h0 : enable ≠ 0
      · simp only [h, h0, if_false, ne_eq, not_false_eq_true, if_true]
        by_cases hp : s.power_state = 0 <;>
          simp [hp, proximity_power, cm3663_light_enable_i2c_client]
      · simp only [h, h0, if_false]
        simp [cm3663_light_disable_i2c_client]
  | proximity_enable_store enable =>
    show (cm3663_proximity_enable_store s enable).i2c_client = s.i2c_client
    unfold cm3663_proximity_enable_store
    by_cases h : enable = (((s.power_state &&& PROXIMITY_ENABLED) >>> 1 : Nat) : Int)
    · simp [h]
    · by_cases h0 : enable ≠ 0
      · simp only [h, h0, if_false, ne_eq, not_false_eq_true, if_true]
        by_cases hp : s.power_state = 0 <;> simp [hp, proximity_power, enable_irq]
      · simp only [h, h0, if_false]
        simp [disable_irq]
  | light_poll_delay_store err new_delay =>
    show (cm3663_light_poll_delay_store s err new_delay).i2c_client = s.i2c_client
    unfold cm3663_light_poll_delay_store
    by_cases herr : err < 0
    · simp [herr]
    · by_cases hne : new_delay ≠ s.light_poll_delay
      · by_cases hl : s.power_state &&& LIGHT_ENABLED ≠ 0
        · simp only [herr, hne, hl, if_false, ne_eq, not_false_eq_true, if_true]
          simp [cm3663_light_enable_i2c_client, cm3663_light_disable_i2c_client]
        · simp [herr, hne, hl]
      · simp [herr, hne]
  | reset =>
    show (cm3663_reset s).i2c_client = s.i2c_client
    unfold cm3663_reset
    by_cases hl : s.power_state &&& LIGHT_ENABLED ≠ 0 <;>
      by_cases hx : s.power_state &&& PROXIMITY_ENABLED ≠ 0 <;>
      simp [hl, hx, hrtimer_cancel, proximity_power, cm3663_light_enable_i2c_client]

/-- No sequence of calls changes the field `i2c_client`: the client and the
adapter that the probe found stay in place. -/
theorem run_calls_keeps_client (calls : List Call) :
    ∀ s : cm3663_data, (run_calls s calls).i2c_client = s.i2c_client := by
  induction calls with
  | nil => intro s; rfl
  | cons c rest ih => intro s; exact (ih (c.run s)).trans (call_keeps_client s c)

end CM3663
